import Mathlib

/-! Axis-aligned bounding-box transform (CPU reference kernel)

A shallow embedding of
`src/tim/vx/internal/src/kernel/cpu/axis_aligned_bbox_transform_cpu.c`.

* The C `float` values are embedded in an arbitrary linearly ordered field `α`
  with a floor function (`ℚ` for evaluation, `ℝ` for statements about the real
  exponential), so every statement below is a statement of exact arithmetic:
  rounding, infinities and NaN are outside the model.
* `exp` (libm) is a parameter of the kernel.
* The five `float` buffers are lists; every read `buf[i]` and every write
  `buf[i] = v` is checked against the length of the list, and the kernel returns
  `none` as soon as one of them is out of range.
* `uint32_t` arithmetic is arithmetic modulo `2 ^ 32`. The type `vsi_size_t` of the
  loop counters and of the output index is declared in a header that is not part
  of the sources; these values are natural numbers, and on an input whose buffers
  have the announced element counts every one of them is below an element count.
-/

namespace AxisAlignedBBoxTransform

variable {α : Type}

/-! ## The kernel -/

/-- Corner form of a box, `vsi_nn_box_encoding_corner`. -/
structure vsi_nn_box_encoding_corner (α : Type) where
  x1 : α
  y1 : α
  x2 : α
  y2 : α

/-- Center form of a box, `vsi_nn_box_encoding_center`. -/
structure vsi_nn_box_encoding_center (α : Type) where
  w : α
  h : α
  x : α
  y : α

/-- Center form to corner form. -/
def _to_box_encoding_corner [LinearOrderedField α] (ctr : vsi_nn_box_encoding_center α) :
    vsi_nn_box_encoding_corner α :=
  { x1 := ctr.x - ctr.w / 2
    y1 := ctr.y - ctr.h / 2
    x2 := ctr.x + ctr.w / 2
    y2 := ctr.y + ctr.h / 2 }

/-- Corner form to center form. -/
def _to_box_encoding_center [LinearOrderedField α] (cnr : vsi_nn_box_encoding_corner α) :
    vsi_nn_box_encoding_center α :=
  { w := cnr.x2 - cnr.x1
    h := cnr.y2 - cnr.y1
    x := (cnr.x1 + cnr.x2) / 2
    y := (cnr.y1 + cnr.y2) / 2 }

/-- Modelled from the spec: the macro `vsi_nn_max` is defined in a header that is
not part of the sources; the spec describes the step it is used in as a clamp
into `[0, bound]`, so it is the larger of its two arguments. -/
def vsi_nn_max [LinearOrderedField α] (a b : α) : α := max a b

/-- Modelled from the spec: the macro `vsi_nn_min` is defined in a header that is
not part of the sources; the spec describes the step it is used in as a clamp
into `[0, bound]`, so it is the smaller of its two arguments. -/
def vsi_nn_min [LinearOrderedField α] (a b : α) : α := min a b

/-- The constant `roiLength` of `_compute`. -/
def roiLength : Nat := 4

/-- The constant `imageLength` of `_compute`. -/
def imageLength : Nat := 2

/-- The modulus of `uint32_t` arithmetic. -/
def UINT32_MOD : Nat := 2 ^ 32

/-- The conversion `(uint32_t) v` of a `float`: the fractional part is discarded
(truncation toward zero); the conversion is undefined, here `none`, when the
integral part is not a `uint32_t` value. -/
def f32_to_u32 [LinearOrderedField α] [FloorRing α] (v : α) : Option Nat :=
  let t : Int := if 0 ≤ v then ⌊v⌋ else ⌈v⌉
  if 0 ≤ t ∧ t < (UINT32_MOD : Int) then some t.toNat else none

/-- The inputs of one kernel invocation: the four input buffers converted to
`float`, the two shape entries `_compute` reads and the element count of the
output tensor. -/
structure Input (α : Type) where
  /-- The buffer `f32_in_buffer[0]`, the ROIs. -/
  rois : List α
  /-- The buffer `f32_in_buffer[1]`, the deltas. -/
  deltas : List α
  /-- The buffer `f32_in_buffer[2]`, the batch index of every ROI. -/
  batch : List α
  /-- The buffer `f32_in_buffer[3]`, the `(height, width)` pair of every image. -/
  bounds : List α
  /-- The shape entry `in_attr[0]->shape->data[1]`. -/
  roisDim1 : Nat
  /-- The shape entry `in_attr[1]->shape->data[0]`. -/
  deltasDim0 : Nat
  /-- The element count `out_elements[0]` of the output tensor. -/
  outElements : Nat

/-- The assignment `numClasses = in_attr[1]->shape->data[0] / roiLength`. -/
def numClasses (inp : Input α) : Nat := inp.deltasDim0 / roiLength

/-- The assignment `numRois = in_attr[0]->shape->data[1]`. -/
def numRois (inp : Input α) : Nat := inp.roisDim1

/-- The state of the two loops: the output buffer `f32_out_buffer[0]` and, as a
ghost component, the assignments made to it so far, each as the pair of the index
and the value assigned, in the order of assignment. -/
structure OutState (α : Type) where
  buf : List α
  written : List (Nat × α)

/-- The assignment `f32_out_buffer[0][i] = v`. -/
def store (st : OutState α) (i : Nat) (v : α) : Option (OutState α) :=
  if i < st.buf.length then
    some { buf := st.buf.set i v, written := st.written ++ [(i, v)] }
  else none

/-- The loop `for (i = 0; i < n; i++) body`, threading a state through the
iterations `0, 1, ..., n - 1`; it stops with `none` when an iteration does. -/
def forLoop {σ : Type} (body : Nat → σ → Option σ) : Nat → σ → Option σ
  | 0, s => some s
  | n + 1, s => (forLoop body n s).bind (body n)

/-- The output index `(roiIndex * numClasses + j) * roiLength`. -/
def outIndex (nClasses roiIndex j : Nat) : Nat := (roiIndex * nClasses + j) * roiLength

/-- The index `batchIndex * imageLength` of the height of an image, a `uint32_t`
product. -/
def heightIndex (batchIndex : Nat) : Nat := (batchIndex * imageLength) % UINT32_MOD

/-- The index `batchIndex * imageLength + 1` of the width of an image, in
`uint32_t` arithmetic. -/
def widthIndex (batchIndex : Nat) : Nat := (heightIndex batchIndex + 1) % UINT32_MOD

/-- The refined center box of one class: the four assignments to `roi_ctr`. -/
def refine [LinearOrderedField α] (exp : α → α) (roiBefore : vsi_nn_box_encoding_center α)
    (dx dy dw dh : α) : vsi_nn_box_encoding_center α :=
  { w := exp dw * roiBefore.w
    h := exp dh * roiBefore.h
    x := roiBefore.x + dx * roiBefore.w
    y := roiBefore.y + dy * roiBefore.h }

/-- The four assignments to `cliped`. -/
def clip [LinearOrderedField α] (imageHeight imageWidth : α)
    (roiAfter : vsi_nn_box_encoding_corner α) : vsi_nn_box_encoding_corner α :=
  { x1 := vsi_nn_min (vsi_nn_max roiAfter.x1 0) imageWidth
    y1 := vsi_nn_min (vsi_nn_max roiAfter.y1 0) imageHeight
    x2 := vsi_nn_min (vsi_nn_max roiAfter.x2 0) imageWidth
    y2 := vsi_nn_min (vsi_nn_max roiAfter.y2 0) imageHeight }

/-- The body of the inner loop over the classes `j`. -/
def classBody [LinearOrderedField α] (exp : α → α) (inp : Input α) (roiIndex : Nat)
    (roiBefore : vsi_nn_box_encoding_center α) (imageHeight imageWidth : α)
    (j : Nat) (st : OutState α) : Option (OutState α) := do
  let index := outIndex (numClasses inp) roiIndex j
  let dw ← inp.deltas[index + 2]?
  let dh ← inp.deltas[index + 3]?
  let dx ← inp.deltas[index]?
  let dy ← inp.deltas[index + 1]?
  let roi_ctr := refine exp roiBefore dx dy dw dh
  let roiAfter := _to_box_encoding_corner roi_ctr
  let cliped := clip imageHeight imageWidth roiAfter
  let st ← store st index cliped.x1
  let st ← store st (index + 1) cliped.y1
  let st ← store st (index + 2) cliped.x2
  store st (index + 3) cliped.y2

/-- The body of the outer loop over the ROIs `roiIndex`. -/
def roiBody [LinearOrderedField α] [FloorRing α] (exp : α → α) (inp : Input α)
    (roiIndex : Nat) (st : OutState α) : Option (OutState α) := do
  let batchIndex ← f32_to_u32 (← inp.batch[roiIndex]?)
  let imageHeight ← inp.bounds[heightIndex batchIndex]?
  let imageWidth ← inp.bounds[widthIndex batchIndex]?
  let x1 ← inp.rois[roiIndex * roiLength]?
  let y1 ← inp.rois[roiIndex * roiLength + 1]?
  let x2 ← inp.rois[roiIndex * roiLength + 2]?
  let y2 ← inp.rois[roiIndex * roiLength + 3]?
  let roi_cnr : vsi_nn_box_encoding_corner α := { x1 := x1, y1 := y1, x2 := x2, y2 := y2 }
  let roiBefore := _to_box_encoding_center roi_cnr
  forLoop (classBody exp inp roiIndex roiBefore imageHeight imageWidth) (numClasses inp) st

/-- The transform loop of `_compute` on the zero-filled output buffer of
`out_elements[0]` values. -/
def _compute [LinearOrderedField α] [FloorRing α] (exp : α → α) (inp : Input α) :
    Option (OutState α) :=
  forLoop (roiBody exp inp) (numRois inp)
    { buf := List.replicate inp.outElements 0, written := [] }

/-! ## Well-shaped inputs, the reference box and concrete inputs -/

/-- The shape conditions on an input with `numImages` images: the four input
buffers and the output tensor have the element counts their shapes announce and
the converted batch index of every ROI is the index of an image. -/
structure ShapeOK [LinearOrderedField α] [FloorRing α] (inp : Input α) (numImages : Nat) :
    Prop where
  rois_len : inp.rois.length = 4 * numRois inp
  deltas_len : inp.deltas.length = 4 * numRois inp * numClasses inp
  batch_len : inp.batch.length = numRois inp
  bounds_len : inp.bounds.length = 2 * numImages
  out_len : inp.outElements = 4 * numRois inp * numClasses inp
  batch_lt : ∀ v ∈ inp.batch, ∃ b, f32_to_u32 v = some b ∧ b < numImages

/-- The values `_compute` reads for the ROI `r` and the class `c`, and the box it
computes from them. -/
def IsBox [LinearOrderedField α] [FloorRing α] (exp : α → α) (inp : Input α) (r c : Nat)
    (box : vsi_nn_box_encoding_corner α) : Prop :=
  ∃ v b H W x1 y1 x2 y2 dx dy dw dh,
    inp.batch[r]? = some v ∧ f32_to_u32 v = some b ∧
    inp.bounds[heightIndex b]? = some H ∧ inp.bounds[widthIndex b]? = some W ∧
    inp.rois[r * roiLength]? = some x1 ∧ inp.rois[r * roiLength + 1]? = some y1 ∧
    inp.rois[r * roiLength + 2]? = some x2 ∧ inp.rois[r * roiLength + 3]? = some y2 ∧
    inp.deltas[outIndex (numClasses inp) r c]? = some dx ∧
    inp.deltas[outIndex (numClasses inp) r c + 1]? = some dy ∧
    inp.deltas[outIndex (numClasses inp) r c + 2]? = some dw ∧
    inp.deltas[outIndex (numClasses inp) r c + 3]? = some dh ∧
    box = clip H W (_to_box_encoding_corner
      (refine exp (_to_box_encoding_center { x1 := x1, y1 := y1, x2 := x2, y2 := y2 })
        dx dy dw dh))

/-- The buffer `buf` holds `box` in the four cells that start at `index`, in the
order `x1, y1, x2, y2`. -/
def HoldsAt (buf : List α) (index : Nat) (box : vsi_nn_box_encoding_corner α) : Prop :=
  buf[index]? = some box.x1 ∧ buf[index + 1]? = some box.y1 ∧
  buf[index + 2]? = some box.x2 ∧ buf[index + 3]? = some box.y2

/-- The four stores of one iteration of the inner loop. -/
def store4 (buf : List α) (index : Nat) (box : vsi_nn_box_encoding_corner α) : List α :=
  (((buf.set index box.x1).set (index + 1) box.y1).set (index + 2) box.x2).set (index + 3)
    box.y2

/-- The decode-and-clip reference, written after the spec and with its formulas only:
the ROI `(x1, y1, x2, y2)` has the center form `w = x2 - x1`, `h = y2 - y1`,
`x = (x1 + x2) / 2`, `y = (y1 + y2) / 2`; the refined center box is `w' = exp dw * w`,
`h' = exp dh * h`, `x' = x + dx * w`, `y' = y + dy * h`; its corner form is
`x' - w' / 2`, `y' - h' / 2`, `x' + w' / 2`, `y' + h' / 2`; and `x1`, `x2` are replaced
by `min (max v 0) W`, `y1`, `y2` by `min (max v 0) H`. -/
def referenceBox [LinearOrderedField α] (exp : α → α) (roi : vsi_nn_box_encoding_corner α)
    (dx dy dw dh H W : α) : vsi_nn_box_encoding_corner α :=
  let w := roi.x2 - roi.x1
  let h := roi.y2 - roi.y1
  let x := (roi.x1 + roi.x2) / 2
  let y := (roi.y1 + roi.y2) / 2
  let w' := exp dw * w
  let h' := exp dh * h
  let x' := x + dx * w
  let y' := y + dy * h
  { x1 := min (max (x' - w' / 2) 0) W
    y1 := min (max (y' - h' / 2) 0) H
    x2 := min (max (x' + w' / 2) 0) W
    y2 := min (max (y' + h' / 2) 0) H }

/-- An input with one ROI `roi`, one class with the delta `(dx, dy, dw, dh)`, the
stored batch value `v` and the image-bounds buffer `bounds`. -/
def singleRoi (α : Type) [LinearOrderedField α] (roi : vsi_nn_box_encoding_corner α)
    (dx dy dw dh v : α) (bounds : List α) : Input α :=
  { rois := [roi.x1, roi.y1, roi.x2, roi.y2]
    deltas := [dx, dy, dw, dh]
    batch := [v]
    bounds := bounds
    roisDim1 := 1
    deltasDim0 := 4
    outElements := 4 }

/-- One ROI `(10, 10, 50, 50)` with one class and the delta `(0, 0, 0, 0)`; the
stored batch value and the image-bounds buffer are left open. -/
def oneRoi (α : Type) [LinearOrderedField α] (v : α) (bounds : List α) : Input α :=
  singleRoi α { x1 := 10, y1 := 10, x2 := 50, y2 := 50 } 0 0 0 0 v bounds

/-- The one-ROI input with the stored batch value `2 ^ 31 = 2147483648` and a bounds
buffer of `2 ^ 31 + 1` images: the pair `(p, q)` for image `0` and `1000` everywhere
else, so `(1000, 1000)` for image `2 ^ 31`. -/
def wrapInput (α : Type) [LinearOrderedField α] (p q : α) : Input α :=
  oneRoi α 2147483648 (p :: q :: List.replicate 4294967296 1000)

/-! ## Loops, stores and indices -/

theorem forLoop_inv {σ : Type} (P : Nat → σ → Prop) (body : Nat → σ → Option σ) (n : Nat)
    (s0 : σ) (h0 : P 0 s0)
    (hstep : ∀ i s, i < n → P i s → ∃ s', body i s = some s' ∧ P (i + 1) s') :
    ∃ s, forLoop body n s0 = some s ∧ P n s := by
  induction n with
  | zero => exact ⟨s0, rfl, h0⟩
  | succ k ih =>
    obtain ⟨s, hs, hP⟩ := ih (fun i s hi => hstep i s (Nat.lt_succ_of_lt hi))
    obtain ⟨s', hs', hP'⟩ := hstep k s (Nat.lt_succ_self k) hP
    exact ⟨s', by simp [forLoop, hs, hs'], hP'⟩

theorem store_eq_some (st : OutState α) (i : Nat) (v : α) (h : i < st.buf.length) :
    store st i v = some { buf := st.buf.set i v, written := st.written ++ [(i, v)] } := by
  simp [store, h]

theorem outIndex_add_le {N C r j : Nat} (hr : r < N) (hj : j < C) :
    outIndex C r j + 4 ≤ 4 * N * C := by
  have h1 : (r + 1) * C ≤ N * C := Nat.mul_le_mul_right C hr
  have h2 : (r + 1) * C = r * C + C := by ring
  have h3 : 4 * N * C = 4 * (N * C) := by ring
  unfold outIndex roiLength
  omega

theorem roi_room {N C r : Nat} (hr : r < N) : 4 * (r * C + C) ≤ 4 * N * C := by
  have h1 : (r + 1) * C ≤ N * C := Nat.mul_le_mul_right C hr
  have h2 : (r + 1) * C = r * C + C := by ring
  have h3 : 4 * N * C = 4 * (N * C) := by ring
  omega

theorem outIndex_injective {C r c r' c' : Nat} (hc : c < C) (hc' : c' < C)
    (h : r * C + c = r' * C + c') : r = r' ∧ c = c' := by
  have hC : 0 < C := Nat.lt_of_le_of_lt (Nat.zero_le c) hc
  have hd : (c + r * C) / C = (c' + r' * C) / C := by rw [Nat.add_comm, h, Nat.add_comm]
  rw [Nat.add_mul_div_right _ _ hC, Nat.add_mul_div_right _ _ hC, Nat.div_eq_of_lt hc,
    Nat.div_eq_of_lt hc'] at hd
  have hr : r = r' := by omega
  subst hr
  exact ⟨rfl, by omega⟩

theorem heightIndex_le (b : Nat) : heightIndex b ≤ 2 * b := by
  unfold heightIndex imageLength
  have := Nat.mod_le (b * 2) UINT32_MOD
  omega

theorem widthIndex_le (b : Nat) : widthIndex b ≤ 2 * b + 1 := by
  unfold widthIndex
  have h1 := Nat.mod_le (heightIndex b + 1) UINT32_MOD
  have h2 := heightIndex_le b
  omega

theorem heightIndex_eq {b : Nat} (h : b < 2 ^ 31) : heightIndex b = 2 * b := by
  unfold heightIndex imageLength UINT32_MOD
  omega

theorem widthIndex_eq {b : Nat} (h : b < 2 ^ 31) : widthIndex b = 2 * b + 1 := by
  unfold widthIndex
  rw [heightIndex_eq h]
  unfold UINT32_MOD
  omega

theorem f32_to_u32_eq_some [LinearOrderedField α] [FloorRing α] {v : α} {b : Nat}
    (h : f32_to_u32 v = some b) :
    (b : Int) = (if 0 ≤ v then ⌊v⌋ else ⌈v⌉) ∧ b < 2 ^ 32 := by
  unfold f32_to_u32 at h
  dsimp only at h
  generalize (if 0 ≤ v then ⌊v⌋ else ⌈v⌉ : Int) = t at h ⊢
  by_cases ht : 0 ≤ t ∧ t < (UINT32_MOD : Int)
  · rw [if_pos ht] at h
    cases h
    rw [Int.toNat_of_nonneg ht.1]
    refine ⟨rfl, ?_⟩
    have := (Int.toNat_lt ht.1).mpr ht.2
    simpa [UINT32_MOD] using this
  · rw [if_neg ht] at h
    cases h

theorem f32_to_u32_zero [LinearOrderedField α] [FloorRing α] :
    f32_to_u32 (0 : α) = some 0 := by
  simp [f32_to_u32, UINT32_MOD]

theorem f32_to_u32_three_quarters : f32_to_u32 (3 / 4 : ℝ) = some 0 := by
  have h : ⌊(3 / 4 : ℝ)⌋ = 0 := by norm_num
  have h0 : (0 : ℝ) ≤ 3 / 4 := by norm_num
  simp [f32_to_u32, h, h0, UINT32_MOD]

theorem exists_getElem? (l : List α) {i : Nat} (h : i < l.length) : ∃ x, l[i]? = some x :=
  ⟨l[i], List.getElem?_eq_getElem h⟩

theorem length_store4 (buf : List α) (index : Nat) (box : vsi_nn_box_encoding_corner α) :
    (store4 buf index box).length = buf.length := by
  simp [store4]

theorem store4_frame (buf : List α) (index : Nat) (box : vsi_nn_box_encoding_corner α)
    {i : Nat} (h : i < index ∨ index + 4 ≤ i) : (store4 buf index box)[i]? = buf[i]? := by
  unfold store4
  rw [List.getElem?_set_ne (by omega), List.getElem?_set_ne (by omega),
    List.getElem?_set_ne (by omega), List.getElem?_set_ne (by omega)]

theorem holdsAt_store4 (buf : List α) (index : Nat) (box : vsi_nn_box_encoding_corner α)
    (h : index + 4 ≤ buf.length) : HoldsAt (store4 buf index box) index box := by
  unfold HoldsAt store4
  refine ⟨?_, ?_, ?_, ?_⟩
  · rw [List.getElem?_set_ne (by omega), List.getElem?_set_ne (by omega),
      List.getElem?_set_ne (by omega), List.getElem?_set_self (by omega)]
  · rw [List.getElem?_set_ne (by omega), List.getElem?_set_ne (by omega),
      List.getElem?_set_self (by simp; omega)]
  · rw [List.getElem?_set_ne (by omega), List.getElem?_set_self (by simp; omega)]
  · rw [List.getElem?_set_self (by simp; omega)]

theorem HoldsAt.frame {buf buf' : List α} {index : Nat} {box : vsi_nn_box_encoding_corner α}
    (h : HoldsAt buf index box) {bound : Nat} (hb : index + 4 ≤ bound)
    (hf : ∀ i, i < bound → buf'[i]? = buf[i]?) : HoldsAt buf' index box := by
  obtain ⟨h1, h2, h3, h4⟩ := h
  exact ⟨by rw [hf _ (by omega)]; exact h1, by rw [hf _ (by omega)]; exact h2,
    by rw [hf _ (by omega)]; exact h3, by rw [hf _ (by omega)]; exact h4⟩

theorem classBody_eq_some [LinearOrderedField α] (exp : α → α) (inp : Input α) (r : Nat)
    (rb : vsi_nn_box_encoding_center α) (H W : α) (j : Nat) (st : OutState α)
    {dx dy dw dh : α}
    (hdx : inp.deltas[outIndex (numClasses inp) r j]? = some dx)
    (hdy : inp.deltas[outIndex (numClasses inp) r j + 1]? = some dy)
    (hdw : inp.deltas[outIndex (numClasses inp) r j + 2]? = some dw)
    (hdh : inp.deltas[outIndex (numClasses inp) r j + 3]? = some dh)
    (hlen : outIndex (numClasses inp) r j + 4 ≤ st.buf.length) :
    classBody exp inp r rb H W j st = some
      { buf := store4 st.buf (outIndex (numClasses inp) r j)
          (clip H W (_to_box_encoding_corner (refine exp rb dx dy dw dh)))
        written := st.written ++
          [(outIndex (numClasses inp) r j,
              (clip H W (_to_box_encoding_corner (refine exp rb dx dy dw dh))).x1),
           (outIndex (numClasses inp) r j + 1,
              (clip H W (_to_box_encoding_corner (refine exp rb dx dy dw dh))).y1),
           (outIndex (numClasses inp) r j + 2,
              (clip H W (_to_box_encoding_corner (refine exp rb dx dy dw dh))).x2),
           (outIndex (numClasses inp) r j + 3,
              (clip H W (_to_box_encoding_corner (refine exp rb dx dy dw dh))).y2)] } := by
  have h0 : outIndex (numClasses inp) r j < st.buf.length := by omega
  have h1 : outIndex (numClasses inp) r j + 1 < st.buf.length := by omega
  have h2 : outIndex (numClasses inp) r j + 2 < st.buf.length := by omega
  have h3 : outIndex (numClasses inp) r j + 3 < st.buf.length := by omega
  simp [classBody, hdx, hdy, hdw, hdh, store, store4, h0, h1, h2, h3]

/-- The inner loop of the ROI `r`, started on a buffer that has room for the
boxes of this ROI, stores one box per class and leaves the cells of the ROIs
before `r` as they were. -/
theorem classLoop_spec [LinearOrderedField α] (exp : α → α) (inp : Input α) (r : Nat)
    (rb : vsi_nn_box_encoding_center α) (H W : α) (st0 : OutState α)
    (hd : 4 * (r * numClasses inp + numClasses inp) ≤ inp.deltas.length)
    (hb : 4 * (r * numClasses inp + numClasses inp) ≤ st0.buf.length) :
    ∃ st, forLoop (classBody exp inp r rb H W) (numClasses inp) st0 = some st ∧
      st.buf.length = st0.buf.length ∧
      st.written.map Prod.fst = st0.written.map Prod.fst ++
        List.range' (4 * (r * numClasses inp)) (4 * numClasses inp) ∧
      (∀ i, i < 4 * (r * numClasses inp) → st.buf[i]? = st0.buf[i]?) ∧
      ∀ c, c < numClasses inp → ∃ dx dy dw dh,
        inp.deltas[outIndex (numClasses inp) r c]? = some dx ∧
        inp.deltas[outIndex (numClasses inp) r c + 1]? = some dy ∧
        inp.deltas[outIndex (numClasses inp) r c + 2]? = some dw ∧
        inp.deltas[outIndex (numClasses inp) r c + 3]? = some dh ∧
        HoldsAt st.buf (outIndex (numClasses inp) r c)
          (clip H W (_to_box_encoding_corner (refine exp rb dx dy dw dh))) := by
  refine forLoop_inv (fun (k : Nat) (st : OutState α) =>
    st.buf.length = st0.buf.length ∧
    st.written.map Prod.fst =
      st0.written.map Prod.fst ++ List.range' (4 * (r * numClasses inp)) (4 * k) ∧
    (∀ i, i < 4 * (r * numClasses inp) → st.buf[i]? = st0.buf[i]?) ∧
    ∀ c, c < k → ∃ dx dy dw dh,
      inp.deltas[outIndex (numClasses inp) r c]? = some dx ∧
      inp.deltas[outIndex (numClasses inp) r c + 1]? = some dy ∧
      inp.deltas[outIndex (numClasses inp) r c + 2]? = some dw ∧
      inp.deltas[outIndex (numClasses inp) r c + 3]? = some dh ∧
      HoldsAt st.buf (outIndex (numClasses inp) r c)
        (clip H W (_to_box_encoding_corner (refine exp rb dx dy dw dh))))
    (classBody exp inp r rb H W) (numClasses inp) st0 ?_ ?_
  · exact ⟨rfl, by simp, fun _ _ => rfl, fun c hc => absurd hc (Nat.not_lt_zero c)⟩
  · rintro j st hj ⟨hlen, hwr, hframe, hcells⟩
    have hidx : outIndex (numClasses inp) r j = 4 * (r * numClasses inp) + 4 * j := by
      unfold outIndex roiLength; ring
    obtain ⟨dx, hdx⟩ := exists_getElem? inp.deltas
      (show outIndex (numClasses inp) r j < inp.deltas.length by omega)
    obtain ⟨dy, hdy⟩ := exists_getElem? inp.deltas
      (show outIndex (numClasses inp) r j + 1 < inp.deltas.length by omega)
    obtain ⟨dw, hdw⟩ := exists_getElem? inp.deltas
      (show outIndex (numClasses inp) r j + 2 < inp.deltas.length by omega)
    obtain ⟨dh, hdh⟩ := exists_getElem? inp.deltas
      (show outIndex (numClasses inp) r j + 3 < inp.deltas.length by omega)
    have hroom : outIndex (numClasses inp) r j + 4 ≤ st.buf.length := by omega
    refine ⟨_, classBody_eq_some exp inp r rb H W j st hdx hdy hdw hdh hroom, ?_, ?_, ?_, ?_⟩
    · simp [length_store4, hlen]
    · simp only [List.map_append, List.map_cons, List.map_nil, hwr, List.append_assoc,
        List.append_cancel_left_eq]
      rw [hidx, show 4 * (j + 1) = 4 * j + 1 + 1 + 1 + 1 by ring]
      simp [List.range'_concat, Nat.add_assoc]
    · intro i hi
      simp only
      rw [store4_frame _ _ _ (Or.inl (by omega))]
      exact hframe i hi
    · intro c hc
      rcases Nat.lt_succ_iff_lt_or_eq.mp hc with hlt | heq
      · obtain ⟨ex, ey, ew, eh, h1, h2, h3, h4, hold⟩ := hcells c hlt
        refine ⟨ex, ey, ew, eh, h1, h2, h3, h4, ?_⟩
        have hc4 : outIndex (numClasses inp) r c + 4 ≤ outIndex (numClasses inp) r j := by
          unfold outIndex roiLength; omega
        exact hold.frame hc4 (fun i hi => store4_frame _ _ _ (Or.inl hi))
      · subst heq
        exact ⟨dx, dy, dw, dh, hdx, hdy, hdw, hdh, holdsAt_store4 _ _ _ hroom⟩

/-- On an input that satisfies the shape conditions the transform loop runs to
its end; the output buffer keeps its length, the indices are assigned in
increasing order without a gap and the four cells of every pair `(r, c)` hold the
box computed from the values read for that pair. -/
theorem compute_spec [LinearOrderedField α] [FloorRing α] (exp : α → α) (inp : Input α)
    (M : Nat) (h : ShapeOK inp M) :
    ∃ st, _compute exp inp = some st ∧
      st.buf.length = inp.outElements ∧
      st.written.map Prod.fst = List.range' 0 (4 * (numRois inp * numClasses inp)) ∧
      ∀ r c, r < numRois inp → c < numClasses inp →
        ∃ box, IsBox exp inp r c box ∧ HoldsAt st.buf (outIndex (numClasses inp) r c) box := by
  unfold _compute
  refine forLoop_inv (fun (n : Nat) (st : OutState α) =>
    st.buf.length = inp.outElements ∧
    st.written.map Prod.fst = List.range' 0 (4 * (n * numClasses inp)) ∧
    ∀ r c, r < n → c < numClasses inp →
      ∃ box, IsBox exp inp r c box ∧ HoldsAt st.buf (outIndex (numClasses inp) r c) box)
    (roiBody exp inp) (numRois inp) _ ?_ ?_
  · exact ⟨by simp, by simp, fun r c hr _ => absurd hr (Nat.not_lt_zero r)⟩
  · rintro r st hr ⟨hlen, hwr, hcells⟩
    obtain ⟨v, hv⟩ := exists_getElem? inp.batch (show r < inp.batch.length by
      rw [h.batch_len]; exact hr)
    obtain ⟨b, hb, hbM⟩ := h.batch_lt v (List.getElem?_mem hv)
    have hhi := heightIndex_le b
    have hwi := widthIndex_le b
    obtain ⟨H, hH⟩ := exists_getElem? inp.bounds (show heightIndex b < inp.bounds.length by
      rw [h.bounds_len]; omega)
    obtain ⟨W, hW⟩ := exists_getElem? inp.bounds (show widthIndex b < inp.bounds.length by
      rw [h.bounds_len]; omega)
    obtain ⟨x1, hx1⟩ := exists_getElem? inp.rois (show r * roiLength < inp.rois.length by
      rw [h.rois_len]; unfold roiLength; omega)
    obtain ⟨y1, hy1⟩ := exists_getElem? inp.rois (show r * roiLength + 1 < inp.rois.length by
      rw [h.rois_len]; unfold roiLength; omega)
    obtain ⟨x2, hx2⟩ := exists_getElem? inp.rois (show r * roiLength + 2 < inp.rois.length by
      rw [h.rois_len]; unfold roiLength; omega)
    obtain ⟨y2, hy2⟩ := exists_getElem? inp.rois (show r * roiLength + 3 < inp.rois.length by
      rw [h.rois_len]; unfold roiLength; omega)
    have hroom := roi_room (C := numClasses inp) hr
    obtain ⟨st', hrun, hlen', hwr', hframe, hnew⟩ := classLoop_spec exp inp r
      (_to_box_encoding_center { x1 := x1, y1 := y1, x2 := x2, y2 := y2 }) H W st
      (by rw [h.deltas_len]; exact hroom) (by rw [hlen, h.out_len]; exact hroom)
    refine ⟨st', ?_, ?_, ?_, ?_⟩
    · simp [roiBody, hv, hb, hH, hW, hx1, hy1, hx2, hy2, hrun]
    · rw [hlen', hlen]
    · rw [hwr', hwr]
      have := List.range'_append 0 (4 * (r * numClasses inp)) (4 * numClasses inp) 1
      simp only [Nat.zero_add, Nat.one_mul] at this
      rw [this]
      congr 1
      ring
    · intro r' c hr' hc
      rcases Nat.lt_succ_iff_lt_or_eq.mp hr' with hlt | heq
      · obtain ⟨box, hbox, hold⟩ := hcells r' c hlt hc
        refine ⟨box, hbox, hold.frame ?_ hframe⟩
        have := outIndex_add_le (C := numClasses inp) hlt hc
        have h3 : 4 * r * numClasses inp = 4 * (r * numClasses inp) := by ring
        omega
      · subst heq
        obtain ⟨dx, dy, dw, dh, hdx, hdy, hdw, hdh, hold⟩ := hnew c hc
        exact ⟨_, ⟨v, b, H, W, x1, y1, x2, y2, dx, dy, dw, dh, hv, hb, hH, hW, hx1, hy1,
          hx2, hy2, hdx, hdy, hdw, hdh, rfl⟩, hold⟩

/-- The values read for a pair `(r, c)` determine the box in its four cells. -/
theorem compute_cell [LinearOrderedField α] [FloorRing α] (exp : α → α) (inp : Input α)
    (M : Nat) (h : ShapeOK inp M) {r c : Nat} (hr : r < numRois inp)
    (hc : c < numClasses inp) {v H W x1 y1 x2 y2 dx dy dw dh : α} {b : Nat}
    (hv : inp.batch[r]? = some v) (hb : f32_to_u32 v = some b)
    (hH : inp.bounds[heightIndex b]? = some H) (hW : inp.bounds[widthIndex b]? = some W)
    (hx1 : inp.rois[r * roiLength]? = some x1) (hy1 : inp.rois[r * roiLength + 1]? = some y1)
    (hx2 : inp.rois[r * roiLength + 2]? = some x2)
    (hy2 : inp.rois[r * roiLength + 3]? = some y2)
    (hdx : inp.deltas[outIndex (numClasses inp) r c]? = some dx)
    (hdy : inp.deltas[outIndex (numClasses inp) r c + 1]? = some dy)
    (hdw : inp.deltas[outIndex (numClasses inp) r c + 2]? = some dw)
    (hdh : inp.deltas[outIndex (numClasses inp) r c + 3]? = some dh) :
    ∃ st, _compute exp inp = some st ∧
      HoldsAt st.buf (outIndex (numClasses inp) r c)
        (clip H W (_to_box_encoding_corner
          (refine exp (_to_box_encoding_center { x1 := x1, y1 := y1, x2 := x2, y2 := y2 })
            dx dy dw dh))) := by
  obtain ⟨st, hst, -, -, hcells⟩ := compute_spec exp inp M h
  obtain ⟨box, ⟨v', b', H', W', a1, a2, a3, a4, e1, e2, e3, e4, gv, gb, gH, gW, g1, g2, g3,
    g4, k1, k2, k3, k4, rfl⟩, hold⟩ := hcells r c hr hc
  rw [hv] at gv
  cases gv
  rw [hb] at gb
  cases gb
  rw [hH] at gH
  rw [hW] at gW
  rw [hx1] at g1
  rw [hy1] at g2
  rw [hx2] at g3
  rw [hy2] at g4
  rw [hdx] at k1
  rw [hdy] at k2
  rw [hdw] at k3
  rw [hdh] at k4
  cases gH
  cases gW
  cases g1
  cases g2
  cases g3
  cases g4
  cases k1
  cases k2
  cases k3
  cases k4
  exact ⟨st, hst, hold⟩

theorem clamp_le [LinearOrderedField α] (v B : α) : vsi_nn_min (vsi_nn_max v 0) B ≤ B :=
  min_le_right _ _

theorem clamp_nonneg [LinearOrderedField α] (v : α) {B : α} (hB : 0 ≤ B) :
    0 ≤ vsi_nn_min (vsi_nn_max v 0) B :=
  le_min (le_max_right _ _) hB

theorem clamp_idem [LinearOrderedField α] (v B : α) :
    vsi_nn_min (vsi_nn_max (vsi_nn_min (vsi_nn_max v 0) B) 0) B =
      vsi_nn_min (vsi_nn_max v 0) B := by
  unfold vsi_nn_min vsi_nn_max
  rcases le_total 0 B with hB | hB
  · rw [max_eq_left (le_min (le_max_right _ _) hB)]
    exact min_eq_left (min_le_right _ _)
  · have h1 : min (max v 0) B = B := min_eq_right (le_trans hB (le_max_right _ _))
    rw [h1, max_eq_right hB, min_eq_right hB]

theorem numClasses_singleRoi [LinearOrderedField α] (roi : vsi_nn_box_encoding_corner α)
    (dx dy dw dh v : α) (bounds : List α) :
    numClasses (singleRoi α roi dx dy dw dh v bounds) = 1 := by
  simp [numClasses, singleRoi, roiLength]

theorem shapeOK_singleRoi [LinearOrderedField α] [FloorRing α]
    (roi : vsi_nn_box_encoding_corner α) (dx dy dw dh v : α) (bounds : List α)
    (M b : Nat) (hlen : bounds.length = 2 * M) (hb : f32_to_u32 v = some b) (hbM : b < M) :
    ShapeOK (singleRoi α roi dx dy dw dh v bounds) M where
  rois_len := by simp [numRois, singleRoi]
  deltas_len := by rw [numClasses_singleRoi]; simp [numRois, singleRoi]
  batch_len := by simp [numRois, singleRoi]
  bounds_len := by simpa [singleRoi] using hlen
  out_len := by rw [numClasses_singleRoi]; simp [numRois, singleRoi]
  batch_lt := by
    intro w hw
    have : w = v := by simpa [singleRoi] using hw
    subst this
    exact ⟨b, hb, hbM⟩

/-- The transform on a one-ROI input: it returns and the four cells at `0` hold the
clipped box of the ROI. -/
theorem compute_singleRoi [LinearOrderedField α] [FloorRing α] (exp : α → α)
    (roi : vsi_nn_box_encoding_corner α) (dx dy dw dh v : α)
    (bounds : List α) (M b : Nat) (H W : α) (hlen : bounds.length = 2 * M)
    (hb : f32_to_u32 v = some b) (hbM : b < M)
    (hH : bounds[heightIndex b]? = some H) (hW : bounds[widthIndex b]? = some W) :
    ∃ st, _compute exp (singleRoi α roi dx dy dw dh v bounds) = some st ∧
      HoldsAt st.buf 0 (clip H W (_to_box_encoding_corner
        (refine exp (_to_box_encoding_center roi) dx dy dw dh))) := by
  have hidx : outIndex (numClasses (singleRoi α roi dx dy dw dh v bounds)) 0 0 = 0 := by
    simp [outIndex]
  have := compute_cell exp (singleRoi α roi dx dy dw dh v bounds) M
    (shapeOK_singleRoi roi dx dy dw dh v bounds M b hlen hb hbM)
    (show 0 < numRois (singleRoi α roi dx dy dw dh v bounds) by simp [numRois, singleRoi])
    (show 0 < numClasses (singleRoi α roi dx dy dw dh v bounds) by
      simp [numClasses_singleRoi])
    (show (singleRoi α roi dx dy dw dh v bounds).batch[0]? = some v by simp [singleRoi]) hb
    (show (singleRoi α roi dx dy dw dh v bounds).bounds[heightIndex b]? = some H by
      simpa [singleRoi] using hH)
    (show (singleRoi α roi dx dy dw dh v bounds).bounds[widthIndex b]? = some W by
      simpa [singleRoi] using hW)
    (show (singleRoi α roi dx dy dw dh v bounds).rois[0 * roiLength]? = some roi.x1 by
      simp [singleRoi])
    (show (singleRoi α roi dx dy dw dh v bounds).rois[0 * roiLength + 1]? = some roi.y1 by
      simp [singleRoi])
    (show (singleRoi α roi dx dy dw dh v bounds).rois[0 * roiLength + 2]? = some roi.x2 by
      simp [singleRoi])
    (show (singleRoi α roi dx dy dw dh v bounds).rois[0 * roiLength + 3]? = some roi.y2 by
      simp [singleRoi])
    (show (singleRoi α roi dx dy dw dh v bounds).deltas[outIndex _ 0 0]? = some dx by
      rw [hidx]; simp [singleRoi])
    (show (singleRoi α roi dx dy dw dh v bounds).deltas[outIndex _ 0 0 + 1]? = some dy by
      rw [hidx]; simp [singleRoi])
    (show (singleRoi α roi dx dy dw dh v bounds).deltas[outIndex _ 0 0 + 2]? = some dw by
      rw [hidx]; simp [singleRoi])
    (show (singleRoi α roi dx dy dw dh v bounds).deltas[outIndex _ 0 0 + 3]? = some dh by
      rw [hidx]; simp [singleRoi])
  rw [hidx] at this
  exact this

theorem numClasses_oneRoi [LinearOrderedField α] (v : α) (bounds : List α) :
    numClasses (oneRoi α v bounds) = 1 :=
  numClasses_singleRoi _ 0 0 0 0 v bounds

theorem numRois_oneRoi [LinearOrderedField α] (v : α) (bounds : List α) :
    numRois (oneRoi α v bounds) = 1 := rfl

theorem shapeOK_oneRoi [LinearOrderedField α] [FloorRing α] (v : α) (bounds : List α)
    (M b : Nat) (hlen : bounds.length = 2 * M) (hb : f32_to_u32 v = some b) (hbM : b < M) :
    ShapeOK (oneRoi α v bounds) M :=
  shapeOK_singleRoi _ 0 0 0 0 v bounds M b hlen hb hbM

theorem compute_oneRoi [LinearOrderedField α] [FloorRing α] (exp : α → α) (v : α)
    (bounds : List α) (M b : Nat) (H W : α) (hlen : bounds.length = 2 * M)
    (hb : f32_to_u32 v = some b) (hbM : b < M)
    (hH : bounds[heightIndex b]? = some H) (hW : bounds[widthIndex b]? = some W) :
    ∃ st, _compute exp (oneRoi α v bounds) = some st ∧
      HoldsAt st.buf 0 (clip H W (_to_box_encoding_corner
        (refine exp (_to_box_encoding_center { x1 := 10, y1 := 10, x2 := 50, y2 := 50 })
          0 0 0 0))) :=
  compute_singleRoi exp _ 0 0 0 0 v bounds M b H W hlen hb hbM hH hW

theorem f32_to_u32_one [LinearOrderedField α] [FloorRing α] :
    f32_to_u32 (1 : α) = some 1 := by
  simp [f32_to_u32, UINT32_MOD]

theorem heightIndex_one : heightIndex 1 = 2 := by
  unfold heightIndex imageLength UINT32_MOD
  norm_num

/-- The out-of-range branch of the model is reachable: with the batch index `1` and the
bounds of one image only, the read of the image height is out of range. -/
theorem compute_batch_index_out_of_range [LinearOrderedField α] [FloorRing α]
    (exp : α → α) : _compute exp (oneRoi α 1 [30, 30]) = none := by
  have hn : numRois (oneRoi α 1 [30, 30]) = 1 := rfl
  have h1 : (oneRoi α 1 [30, 30]).batch[0]? = some 1 := rfl
  have h2 : (oneRoi α 1 [30, 30]).bounds[heightIndex 1]? = none := by
    rw [heightIndex_one]; rfl
  unfold _compute
  rw [hn]
  simp only [forLoop, roiBody, Option.bind_eq_bind, Option.some_bind, h1, f32_to_u32_one, h2,
    Option.none_bind, Option.pure_def]

theorem buf_eq_of_holdsAt (buf : List α) (box : vsi_nn_box_encoding_corner α)
    (hlen : buf.length = 4) (h : HoldsAt buf 0 box) :
    buf = [box.x1, box.y1, box.x2, box.y2] := by
  obtain ⟨h1, h2, h3, h4⟩ := h
  match buf, hlen with
  | [a, b, c, d], _ =>
    simp only [Nat.zero_add] at h2 h3 h4
    simp only [List.getElem?_cons_zero, List.getElem?_cons_succ, Option.some.injEq]
      at h1 h2 h3 h4
    rw [h1, h2, h3, h4]

/-- The transform on a one-ROI input returns the clipped box of the ROI as its whole
output. -/
theorem compute_singleRoi_buf [LinearOrderedField α] [FloorRing α] (exp : α → α)
    (roi : vsi_nn_box_encoding_corner α) (dx dy dw dh v : α)
    (bounds : List α) (M b : Nat) (H W : α) (hlen : bounds.length = 2 * M)
    (hb : f32_to_u32 v = some b) (hbM : b < M)
    (hH : bounds[heightIndex b]? = some H) (hW : bounds[widthIndex b]? = some W) :
    ∃ st, _compute exp (singleRoi α roi dx dy dw dh v bounds) = some st ∧
      st.buf =
        [(clip H W (_to_box_encoding_corner
            (refine exp (_to_box_encoding_center roi) dx dy dw dh))).x1,
         (clip H W (_to_box_encoding_corner
            (refine exp (_to_box_encoding_center roi) dx dy dw dh))).y1,
         (clip H W (_to_box_encoding_corner
            (refine exp (_to_box_encoding_center roi) dx dy dw dh))).x2,
         (clip H W (_to_box_encoding_corner
            (refine exp (_to_box_encoding_center roi) dx dy dw dh))).y2] := by
  obtain ⟨st, hst, hold⟩ := compute_singleRoi exp roi dx dy dw dh v bounds M b H W hlen hb hbM
    hH hW
  obtain ⟨st', hst', hlen', -, -⟩ := compute_spec exp (singleRoi α roi dx dy dw dh v bounds) M
    (shapeOK_singleRoi roi dx dy dw dh v bounds M b hlen hb hbM)
  rw [hst] at hst'
  cases hst'
  exact ⟨st, hst, buf_eq_of_holdsAt st.buf _ hlen' hold⟩

theorem heightIndex_zero : heightIndex 0 = 0 := by
  simp [heightIndex]

theorem widthIndex_zero : widthIndex 0 = 1 := by
  simp [widthIndex, heightIndex, UINT32_MOD]

theorem clamp_mono [LinearOrderedField α] {a b : α} (h : a ≤ b) (B : α) :
    vsi_nn_min (vsi_nn_max a 0) B ≤ vsi_nn_min (vsi_nn_max b 0) B :=
  min_le_min (max_le_max h le_rfl) le_rfl

theorem f32_to_u32_of_nonneg [LinearOrderedField α] [FloorRing α] {v : α} (h0 : 0 ≤ v)
    (h1 : v < 2 ^ 32) : f32_to_u32 v = some ⌊v⌋.toNat := by
  have hf0 : 0 ≤ ⌊v⌋ := Int.floor_nonneg.mpr h0
  have hf1 : ⌊v⌋ < (UINT32_MOD : Int) := by
    rw [Int.floor_lt]
    have hc : (((UINT32_MOD : Nat) : Int) : α) = 2 ^ 32 := by
      unfold UINT32_MOD
      norm_num
    rw [hc]
    exact h1
  simp only [f32_to_u32, if_pos h0, if_pos (And.intro hf0 hf1)]

theorem clip_corner_order [LinearOrderedField α] (exp : α → α) (hexp : ∀ t, 0 ≤ exp t)
    (roi : vsi_nn_box_encoding_corner α) (hx : roi.x1 ≤ roi.x2) (hy : roi.y1 ≤ roi.y2)
    (dx dy dw dh H W : α) :
    (clip H W (_to_box_encoding_corner
        (refine exp (_to_box_encoding_center roi) dx dy dw dh))).x1 ≤
      (clip H W (_to_box_encoding_corner
        (refine exp (_to_box_encoding_center roi) dx dy dw dh))).x2 ∧
    (clip H W (_to_box_encoding_corner
        (refine exp (_to_box_encoding_center roi) dx dy dw dh))).y1 ≤
      (clip H W (_to_box_encoding_corner
        (refine exp (_to_box_encoding_center roi) dx dy dw dh))).y2 := by
  have hw : 0 ≤ exp dw * (roi.x2 - roi.x1) := mul_nonneg (hexp dw) (sub_nonneg.mpr hx)
  have hh : 0 ≤ exp dh * (roi.y2 - roi.y1) := mul_nonneg (hexp dh) (sub_nonneg.mpr hy)
  have hw2 : 0 ≤ exp dw * (roi.x2 - roi.x1) / 2 := div_nonneg hw (by norm_num)
  have hh2 : 0 ≤ exp dh * (roi.y2 - roi.y1) / 2 := div_nonneg hh (by norm_num)
  simp only [clip, refine, _to_box_encoding_corner, _to_box_encoding_center]
  exact ⟨clamp_mono (by linarith) W, clamp_mono (by linarith) H⟩

theorem f32_to_u32_two_pow_31 : f32_to_u32 (2147483648 : ℝ) = some 2147483648 := by
  rw [f32_to_u32_of_nonneg (by norm_num) (by norm_num)]
  have hf : ⌊(2147483648 : ℝ)⌋ = 2147483648 := by
    rw [Int.floor_eq_iff]
    norm_num
  rw [hf]
  rfl

theorem heightIndex_two_pow_31 : heightIndex 2147483648 = 0 := by
  unfold heightIndex imageLength UINT32_MOD
  norm_num

theorem widthIndex_two_pow_31 : widthIndex 2147483648 = 1 := by
  unfold widthIndex
  rw [heightIndex_two_pow_31]
  unfold UINT32_MOD
  norm_num

theorem length_two_cons_replicate (a b c : α) (n : Nat) :
    (a :: b :: List.replicate n c).length = n + 2 := by
  simp only [List.length_cons, List.length_replicate]

theorem getElem?_two_cons_replicate (a b c : α) (n i : Nat) (hi : i < n) :
    (a :: b :: List.replicate n c)[i + 2]? = some c := by
  rw [show i + 2 = i + 1 + 1 from rfl, List.getElem?_cons_succ, List.getElem?_cons_succ,
    List.getElem?_replicate, if_pos hi]

theorem referenceBox_eq [LinearOrderedField α] (exp : α → α)
    (roi : vsi_nn_box_encoding_corner α) (dx dy dw dh H W : α) :
    clip H W (_to_box_encoding_corner (refine exp (_to_box_encoding_center roi) dx dy dw dh)) =
      referenceBox exp roi dx dy dw dh H W := by
  simp only [clip, _to_box_encoding_corner, refine, _to_box_encoding_center, referenceBox,
    vsi_nn_min, vsi_nn_max]

theorem shapeOK_wrapInput (p q : ℝ) : ShapeOK (wrapInput ℝ p q) 2147483649 :=
  shapeOK_oneRoi _ _ 2147483649 2147483648 (by rw [length_two_cons_replicate])
    f32_to_u32_two_pow_31 (by norm_num)

theorem bounds_wrapInput_height (p q : ℝ) :
    (wrapInput ℝ p q).bounds[2 * 2147483648]? = some 1000 :=
  getElem?_two_cons_replicate p q 1000 4294967296 4294967294 (by norm_num)

theorem bounds_wrapInput_width (p q : ℝ) :
    (wrapInput ℝ p q).bounds[2 * 2147483648 + 1]? = some 1000 :=
  getElem?_two_cons_replicate p q 1000 4294967296 4294967295 (by norm_num)

/-- The transform on `wrapInput`: the ROI `(10, 10, 50, 50)` is clipped with the pair
`(p, q)` of image `0`. -/
theorem compute_wrapInput (p q : ℝ) :
    ∃ st, _compute Real.exp (wrapInput ℝ p q) = some st ∧
      st.buf = [min (max 10 0) q, min (max 10 0) p, min (max 50 0) q, min (max 50 0) p] := by
  obtain ⟨st, hst, hbuf⟩ := compute_singleRoi_buf Real.exp
    { x1 := 10, y1 := 10, x2 := 50, y2 := 50 } 0 0 0 0 (2147483648 : ℝ)
    (p :: q :: List.replicate 4294967296 1000) 2147483649 2147483648 p q
    (by rw [length_two_cons_replicate])
    f32_to_u32_two_pow_31 (by norm_num)
    (by rw [heightIndex_two_pow_31]; exact List.getElem?_cons_zero)
    (by
      rw [widthIndex_two_pow_31, show (1 : Nat) = 0 + 1 from rfl, List.getElem?_cons_succ]
      exact List.getElem?_cons_zero)
  refine ⟨st, hst, ?_⟩
  rw [hbuf]
  norm_num [clip, refine, _to_box_encoding_corner, _to_box_encoding_center, vsi_nn_min,
    vsi_nn_max]

theorem rois_wrapInput [LinearOrderedField α] (p q : α) :
    (wrapInput α p q).rois = [10, 10, 50, 50] := rfl

theorem deltas_wrapInput [LinearOrderedField α] (p q : α) :
    (wrapInput α p q).deltas = [0, 0, 0, 0] := rfl

theorem batch_wrapInput [LinearOrderedField α] (p q : α) :
    (wrapInput α p q).batch = [2147483648] := rfl

/-! ## The claims -/

/-- C1, counterexample: with one ROI `(10, 10, 50, 50)`, the delta `(0, 0, 0, 0)` and the
image bounds `(height, width) = (-1, -1)` the input satisfies the shape conditions and
the transform stores `x1 = -1`, which is not `0 ≤ x1`. -/
theorem clamp_bounds_fails_for_negative_bounds :
    ShapeOK (oneRoi ℝ 0 [-1, -1]) 1 ∧
      ∃ st, _compute Real.exp (oneRoi ℝ 0 [-1, -1]) = some st ∧
        ∃ x1, st.buf[0]? = some x1 ∧ ¬ (0 ≤ x1) := by
  have hb : f32_to_u32 (0 : ℝ) = some 0 := f32_to_u32_zero
  refine ⟨shapeOK_oneRoi 0 _ 1 0 rfl hb (by decide), ?_⟩
  obtain ⟨st, hst, h1, -⟩ := compute_oneRoi Real.exp (0 : ℝ) [-1, -1] 1 0 (-1) (-1) rfl hb
    (by decide) (by simp [heightIndex]) (by simp [widthIndex, heightIndex, UINT32_MOD])
  refine ⟨st, hst, _, h1, ?_⟩
  simp [clip, vsi_nn_min, vsi_nn_max]

/-- C1, amended: on every input that satisfies the shape conditions the transform
returns, and for every ROI `r` and class `c` the stored box satisfies
`x1, x2 ≤ imageWidth` and `y1, y2 ≤ imageHeight` for the image-bounds pair read for the
batch index of `r`, whatever the ROI values, deltas and bounds are; `0 ≤ x1, x2` holds
when `0 ≤ imageWidth` and `0 ≤ y1, y2` holds when `0 ≤ imageHeight`. -/
theorem clamp_bounds [LinearOrderedField α] [FloorRing α] (exp : α → α) (inp : Input α)
    (numImages : Nat) (h : ShapeOK inp numImages) :
    ∃ st, _compute exp inp = some st ∧
      ∀ r c, r < numRois inp → c < numClasses inp →
        ∃ v b imageHeight imageWidth x1 y1 x2 y2,
          inp.batch[r]? = some v ∧ f32_to_u32 v = some b ∧
          inp.bounds[heightIndex b]? = some imageHeight ∧
          inp.bounds[widthIndex b]? = some imageWidth ∧
          st.buf[outIndex (numClasses inp) r c]? = some x1 ∧
          st.buf[outIndex (numClasses inp) r c + 1]? = some y1 ∧
          st.buf[outIndex (numClasses inp) r c + 2]? = some x2 ∧
          st.buf[outIndex (numClasses inp) r c + 3]? = some y2 ∧
          x1 ≤ imageWidth ∧ x2 ≤ imageWidth ∧ y1 ≤ imageHeight ∧ y2 ≤ imageHeight ∧
          (0 ≤ imageWidth → 0 ≤ x1 ∧ 0 ≤ x2) ∧ (0 ≤ imageHeight → 0 ≤ y1 ∧ 0 ≤ y2) := by
  obtain ⟨st, hst, -, -, hcells⟩ := compute_spec exp inp numImages h
  refine ⟨st, hst, fun r c hr hc => ?_⟩
  obtain ⟨box, ⟨v, b, H, W, a1, a2, a3, a4, e1, e2, e3, e4, gv, gb, gH, gW, -, -, -, -, -,
    -, -, -, rfl⟩, h1, h2, h3, h4⟩ := hcells r c hr hc
  exact ⟨v, b, H, W, _, _, _, _, gv, gb, gH, gW, h1, h2, h3, h4, clamp_le _ _, clamp_le _ _,
    clamp_le _ _, clamp_le _ _, fun hW => ⟨clamp_nonneg _ hW, clamp_nonneg _ hW⟩,
    fun hH => ⟨clamp_nonneg _ hH, clamp_nonneg _ hH⟩⟩

/-- The amended clamp bounds at the one-ROI input with image bounds `(30, 30)`. -/
theorem clamp_bounds_witness :
    ShapeOK (oneRoi ℝ 0 [30, 30]) 1 ∧
      ∃ st, _compute Real.exp (oneRoi ℝ 0 [30, 30]) = some st ∧
        ∀ r c, r < numRois (oneRoi ℝ 0 [30, 30]) → c < numClasses (oneRoi ℝ 0 [30, 30]) →
          ∃ v b imageHeight imageWidth x1 y1 x2 y2,
            (oneRoi ℝ 0 [30, 30]).batch[r]? = some v ∧ f32_to_u32 v = some b ∧
            (oneRoi ℝ 0 [30, 30]).bounds[heightIndex b]? = some imageHeight ∧
            (oneRoi ℝ 0 [30, 30]).bounds[widthIndex b]? = some imageWidth ∧
            st.buf[outIndex (numClasses (oneRoi ℝ 0 [30, 30])) r c]? = some x1 ∧
            st.buf[outIndex (numClasses (oneRoi ℝ 0 [30, 30])) r c + 1]? = some y1 ∧
            st.buf[outIndex (numClasses (oneRoi ℝ 0 [30, 30])) r c + 2]? = some x2 ∧
            st.buf[outIndex (numClasses (oneRoi ℝ 0 [30, 30])) r c + 3]? = some y2 ∧
            x1 ≤ imageWidth ∧ x2 ≤ imageWidth ∧ y1 ≤ imageHeight ∧ y2 ≤ imageHeight ∧
            (0 ≤ imageWidth → 0 ≤ x1 ∧ 0 ≤ x2) ∧ (0 ≤ imageHeight → 0 ≤ y1 ∧ 0 ≤ y2) :=
  ⟨shapeOK_oneRoi 0 _ 1 0 rfl f32_to_u32_zero (by decide),
    clamp_bounds Real.exp _ 1 (shapeOK_oneRoi 0 _ 1 0 rfl f32_to_u32_zero (by decide))⟩

/-- C2, counterexample: on `wrapInput 30 30` the shape conditions hold, the batch index of
the ROI is `b = 2 ^ 31` and `(bounds[2b], bounds[2b+1]) = (1000, 1000)`, for which the
reference box is `(10, 10, 50, 50)`; the transform computes the index `2b` in `uint32_t`
arithmetic, reads the pair `(30, 30)` at the indices `0` and `1` and stores
`(10, 10, 30, 30)`. -/
theorem decode_and_clip_fails_beyond_uint32 :
    ShapeOK (wrapInput ℝ 30 30) 2147483649 ∧
      (wrapInput ℝ 30 30).batch[0]? = some 2147483648 ∧
      f32_to_u32 (2147483648 : ℝ) = some 2147483648 ∧
      (wrapInput ℝ 30 30).bounds[2 * 2147483648]? = some 1000 ∧
      (wrapInput ℝ 30 30).bounds[2 * 2147483648 + 1]? = some 1000 ∧
      (referenceBox Real.exp { x1 := 10, y1 := 10, x2 := 50, y2 := 50 } 0 0 0 0 1000 1000).x2 =
        50 ∧
      ∃ st, _compute Real.exp (wrapInput ℝ 30 30) = some st ∧ st.buf = [10, 10, 30, 30] := by
  refine ⟨shapeOK_wrapInput 30 30, rfl, f32_to_u32_two_pow_31, bounds_wrapInput_height 30 30,
    bounds_wrapInput_width 30 30, ?_, ?_⟩
  · norm_num [referenceBox]
  · obtain ⟨st, hst, hbuf⟩ := compute_wrapInput 30 30
    refine ⟨st, hst, ?_⟩
    rw [hbuf]
    norm_num

/-- C2, amended: on every input that satisfies the shape conditions the transform
returns, and for every ROI `r` and class `c`, with `idx = (r * numClasses + c) * 4`, the
deltas `(dx, dy, dw, dh)` at `idx` and the batch index `b` of `r`: when `b < 2 ^ 31`, with
`(H, W) = (bounds[2b], bounds[2b+1])`, the cells `idx .. idx + 3` of the output hold
`x1, y1, x2, y2` of the reference box of the spec. -/
theorem decode_and_clip [LinearOrderedField α] [FloorRing α] (exp : α → α) (inp : Input α)
    (numImages : Nat) (h : ShapeOK inp numImages) :
    ∃ st, _compute exp inp = some st ∧
      ∀ r c, r < numRois inp → c < numClasses inp →
        ∃ v b x1 y1 x2 y2 dx dy dw dh,
          inp.batch[r]? = some v ∧ f32_to_u32 v = some b ∧
          inp.rois[r * 4]? = some x1 ∧ inp.rois[r * 4 + 1]? = some y1 ∧
          inp.rois[r * 4 + 2]? = some x2 ∧ inp.rois[r * 4 + 3]? = some y2 ∧
          inp.deltas[(r * numClasses inp + c) * 4]? = some dx ∧
          inp.deltas[(r * numClasses inp + c) * 4 + 1]? = some dy ∧
          inp.deltas[(r * numClasses inp + c) * 4 + 2]? = some dw ∧
          inp.deltas[(r * numClasses inp + c) * 4 + 3]? = some dh ∧
          (b < 2 ^ 31 →
            ∃ H W, inp.bounds[2 * b]? = some H ∧ inp.bounds[2 * b + 1]? = some W ∧
              st.buf[(r * numClasses inp + c) * 4]? = some
                (referenceBox exp { x1 := x1, y1 := y1, x2 := x2, y2 := y2 }
                  dx dy dw dh H W).x1 ∧
              st.buf[(r * numClasses inp + c) * 4 + 1]? = some
                (referenceBox exp { x1 := x1, y1 := y1, x2 := x2, y2 := y2 }
                  dx dy dw dh H W).y1 ∧
              st.buf[(r * numClasses inp + c) * 4 + 2]? = some
                (referenceBox exp { x1 := x1, y1 := y1, x2 := x2, y2 := y2 }
                  dx dy dw dh H W).x2 ∧
              st.buf[(r * numClasses inp + c) * 4 + 3]? = some
                (referenceBox exp { x1 := x1, y1 := y1, x2 := x2, y2 := y2 }
                  dx dy dw dh H W).y2) := by
  obtain ⟨st, hst, -, -, hcells⟩ := compute_spec exp inp numImages h
  refine ⟨st, hst, fun r c hr hc => ?_⟩
  obtain ⟨box, ⟨v, b, H, W, x1, y1, x2, y2, dx, dy, dw, dh, gv, gb, gH, gW, g1, g2, g3, g4,
    k1, k2, k3, k4, rfl⟩, h1, h2, h3, h4⟩ := hcells r c hr hc
  refine ⟨v, b, x1, y1, x2, y2, dx, dy, dw, dh, gv, gb, g1, g2, g3, g4, k1, k2, k3, k4,
    fun hb31 => ?_⟩
  rw [heightIndex_eq hb31] at gH
  rw [widthIndex_eq hb31] at gW
  rw [referenceBox_eq] at h1 h2 h3 h4
  exact ⟨H, W, gH, gW, h1, h2, h3, h4⟩

/-- The amended decode-and-clip reference at the one-ROI input with image bounds
`(30, 30)`. -/
theorem decode_and_clip_witness :
    ShapeOK (oneRoi ℝ 0 [30, 30]) 1 ∧
      ∃ st, _compute Real.exp (oneRoi ℝ 0 [30, 30]) = some st ∧
        ∀ r c, r < numRois (oneRoi ℝ 0 [30, 30]) → c < numClasses (oneRoi ℝ 0 [30, 30]) →
          ∃ v b x1 y1 x2 y2 dx dy dw dh,
            (oneRoi ℝ 0 [30, 30]).batch[r]? = some v ∧ f32_to_u32 v = some b ∧
            (oneRoi ℝ 0 [30, 30]).rois[r * 4]? = some x1 ∧
            (oneRoi ℝ 0 [30, 30]).rois[r * 4 + 1]? = some y1 ∧
            (oneRoi ℝ 0 [30, 30]).rois[r * 4 + 2]? = some x2 ∧
            (oneRoi ℝ 0 [30, 30]).rois[r * 4 + 3]? = some y2 ∧
            (oneRoi ℝ 0 [30, 30]).deltas[(r * numClasses (oneRoi ℝ 0 [30, 30]) + c) * 4]? =
              some dx ∧
            (oneRoi ℝ 0 [30, 30]).deltas[(r * numClasses (oneRoi ℝ 0 [30, 30]) + c) * 4 + 1]? =
              some dy ∧
            (oneRoi ℝ 0 [30, 30]).deltas[(r * numClasses (oneRoi ℝ 0 [30, 30]) + c) * 4 + 2]? =
              some dw ∧
            (oneRoi ℝ 0 [30, 30]).deltas[(r * numClasses (oneRoi ℝ 0 [30, 30]) + c) * 4 + 3]? =
              some dh ∧
            (b < 2 ^ 31 →
              ∃ H W, (oneRoi ℝ 0 [30, 30]).bounds[2 * b]? = some H ∧
                (oneRoi ℝ 0 [30, 30]).bounds[2 * b + 1]? = some W ∧
                st.buf[(r * numClasses (oneRoi ℝ 0 [30, 30]) + c) * 4]? = some
                  (referenceBox Real.exp { x1 := x1, y1 := y1, x2 := x2, y2 := y2 }
                    dx dy dw dh H W).x1 ∧
                st.buf[(r * numClasses (oneRoi ℝ 0 [30, 30]) + c) * 4 + 1]? = some
                  (referenceBox Real.exp { x1 := x1, y1 := y1, x2 := x2, y2 := y2 }
                    dx dy dw dh H W).y1 ∧
                st.buf[(r * numClasses (oneRoi ℝ 0 [30, 30]) + c) * 4 + 2]? = some
                  (referenceBox Real.exp { x1 := x1, y1 := y1, x2 := x2, y2 := y2 }
                    dx dy dw dh H W).x2 ∧
                st.buf[(r * numClasses (oneRoi ℝ 0 [30, 30]) + c) * 4 + 3]? = some
                  (referenceBox Real.exp { x1 := x1, y1 := y1, x2 := x2, y2 := y2 }
                    dx dy dw dh H W).y2) :=
  ⟨shapeOK_oneRoi 0 [30, 30] 1 0 rfl f32_to_u32_zero (by decide),
    decode_and_clip Real.exp _ 1 (shapeOK_oneRoi 0 [30, 30] 1 0 rfl f32_to_u32_zero (by decide))⟩

/-- C3: when `exp 0 = 1`, for every ROI and a class whose delta quadruple is `(0, 0, 0, 0)`
the box before clipping, the corner form of the refined center box, is the ROI itself. -/
theorem identity_delta [LinearOrderedField α] (exp : α → α) (h0 : exp 0 = 1)
    (roi : vsi_nn_box_encoding_corner α) :
    _to_box_encoding_corner (refine exp (_to_box_encoding_center roi) 0 0 0 0) = roi := by
  cases roi with
  | mk x1 y1 x2 y2 =>
    simp only [_to_box_encoding_corner, refine, _to_box_encoding_center, h0]
    congr 1 <;> ring

/-- The identity delta at the real exponential and the ROI `(10, 10, 50, 50)`. -/
theorem identity_delta_witness :
    Real.exp 0 = 1 ∧
      _to_box_encoding_corner (refine Real.exp
        (_to_box_encoding_center { x1 := 10, y1 := 10, x2 := 50, y2 := 50 }) 0 0 0 0) =
        ({ x1 := 10, y1 := 10, x2 := 50, y2 := 50 } : vsi_nn_box_encoding_corner ℝ) :=
  ⟨Real.exp_zero, identity_delta Real.exp Real.exp_zero _⟩

/-- C4: taking a center-form box to corner form and back to center form gives the box
again, in all four fields. -/
theorem center_corner_roundtrip [LinearOrderedField α] (b : vsi_nn_box_encoding_center α) :
    _to_box_encoding_center (_to_box_encoding_corner b) = b := by
  cases b with
  | mk w h x y =>
    simp only [_to_box_encoding_corner, _to_box_encoding_center]
    congr 1 <;> ring

/-- C5: for every corner box and all image bounds `(H, W)`, the clip step applied to a
clipped box returns that clipped box. -/
theorem clip_idempotent [LinearOrderedField α] (imageHeight imageWidth : α)
    (box : vsi_nn_box_encoding_corner α) :
    clip imageHeight imageWidth (clip imageHeight imageWidth box) =
      clip imageHeight imageWidth box := by
  simp only [clip, clamp_idem]

/-- C7: when the four input buffers and the output have the element counts of a
well-shaped input and every batch index is below `numImages`, every read and every
write of the transform loop is in range: the transform returns a result. -/
theorem total_on_well_shaped [LinearOrderedField α] [FloorRing α] (exp : α → α)
    (inp : Input α) (numImages : Nat)
    (hrois : inp.rois.length = 4 * numRois inp)
    (hdeltas : inp.deltas.length = 4 * numRois inp * numClasses inp)
    (hbatch : inp.batch.length = numRois inp)
    (hbounds : inp.bounds.length = 2 * numImages)
    (hout : inp.outElements = 4 * numRois inp * numClasses inp)
    (hindex : ∀ v ∈ inp.batch, ∃ b, f32_to_u32 v = some b ∧ b < numImages) :
    ∃ st, _compute exp inp = some st := by
  obtain ⟨st, hst, -⟩ := compute_spec exp inp numImages
    ⟨hrois, hdeltas, hbatch, hbounds, hout, hindex⟩
  exact ⟨st, hst⟩

/-- Totality at the one-ROI input with image bounds `(30, 30)`. -/
theorem total_on_well_shaped_witness :
    ShapeOK (oneRoi ℝ 0 [30, 30]) 1 ∧ ∃ st, _compute Real.exp (oneRoi ℝ 0 [30, 30]) = some st :=
  ⟨shapeOK_oneRoi 0 [30, 30] 1 0 rfl f32_to_u32_zero (by decide),
    total_on_well_shaped Real.exp (oneRoi ℝ 0 [30, 30]) 1
      (shapeOK_oneRoi 0 [30, 30] 1 0 rfl f32_to_u32_zero (by decide)).rois_len
      (shapeOK_oneRoi 0 [30, 30] 1 0 rfl f32_to_u32_zero (by decide)).deltas_len
      (shapeOK_oneRoi 0 [30, 30] 1 0 rfl f32_to_u32_zero (by decide)).batch_len
      (shapeOK_oneRoi 0 [30, 30] 1 0 rfl f32_to_u32_zero (by decide)).bounds_len
      (shapeOK_oneRoi 0 [30, 30] 1 0 rfl f32_to_u32_zero (by decide)).out_len
      (shapeOK_oneRoi 0 [30, 30] 1 0 rfl f32_to_u32_zero (by decide)).batch_lt⟩

/-- C8, counterexample: with one ROI `(10, 10, 50, 50)`, the delta `(0, 0, 0, 0)`, the stored
batch value `3 / 4`, which rounds to `1`, and the image bounds `(30, 30)` and
`(1000, 1000)`, the transform stores `x2 = 30`: the box is clipped with the bounds of
image `0`, while the bounds of image `1` would leave `x2 = 50`. Moreover, on
`wrapInput 30 30` the stored batch value is the integer `2 ^ 31`, the pair at the index
`2 ^ 31` is `(1000, 1000)`, and the transform stores `x2 = 30` all the same: the index of
the pair is computed in `uint32_t` arithmetic. -/
theorem batch_index_not_rounded :
    ShapeOK (oneRoi ℝ (3 / 4) [30, 30, 1000, 1000]) 2 ∧
      round (3 / 4 : ℝ) = 1 ∧
      (∃ st, _compute Real.exp (oneRoi ℝ (3 / 4) [30, 30, 1000, 1000]) = some st ∧
        st.buf[2]? = some 30) ∧
      (clip 1000 1000 (_to_box_encoding_corner (refine Real.exp
        (_to_box_encoding_center { x1 := 10, y1 := 10, x2 := 50, y2 := 50 }) 0 0 0 0))).x2 =
        (50 : ℝ) ∧
      ShapeOK (wrapInput ℝ 30 30) 2147483649 ∧
      (wrapInput ℝ 30 30).batch[0]? = some 2147483648 ∧
      round (2147483648 : ℝ) = 2147483648 ∧
      (wrapInput ℝ 30 30).bounds[2 * 2147483648]? = some 1000 ∧
      (wrapInput ℝ 30 30).bounds[2 * 2147483648 + 1]? = some 1000 ∧
      ∃ st, _compute Real.exp (wrapInput ℝ 30 30) = some st ∧ st.buf[2]? = some 30 := by
  refine ⟨shapeOK_oneRoi _ _ 2 0 rfl f32_to_u32_three_quarters (by decide), ?_, ?_, ?_,
    shapeOK_wrapInput 30 30, rfl, ?_, bounds_wrapInput_height 30 30,
    bounds_wrapInput_width 30 30, ?_⟩
  · rw [round_eq, Int.floor_eq_iff]; norm_num
  · obtain ⟨st, hst, -, -, h3, -⟩ := compute_oneRoi Real.exp (3 / 4 : ℝ) [30, 30, 1000, 1000]
      2 0 30 30 rfl f32_to_u32_three_quarters (by decide) (by simp [heightIndex])
      (by simp [widthIndex, heightIndex, UINT32_MOD])
    refine ⟨st, hst, ?_⟩
    rw [h3]
    norm_num [clip, refine, _to_box_encoding_corner, _to_box_encoding_center, vsi_nn_min,
      vsi_nn_max]
  · norm_num [clip, refine, _to_box_encoding_corner, _to_box_encoding_center, vsi_nn_min,
      vsi_nn_max]
  · rw [round_eq, Int.floor_eq_iff]; norm_num
  · obtain ⟨st, hst, hbuf⟩ := compute_wrapInput 30 30
    refine ⟨st, hst, ?_⟩
    rw [hbuf]
    norm_num

/-- C8, amended: on every input that satisfies the shape conditions, for every ROI `r`
with stored batch value `v`, the batch index `b` is `v` with its fractional part
discarded, `⌊v⌋` for `0 ≤ v` and `⌈v⌉` for `v < 0`, not `v` rounded to the nearest
integer; when `b < 2 ^ 31`, the boxes of `r` are clipped with the image-bounds pair at the
index `b`. -/
theorem batch_index_truncated [LinearOrderedField α] [FloorRing α] (exp : α → α)
    (inp : Input α) (numImages : Nat) (h : ShapeOK inp numImages) :
    ∃ st, _compute exp inp = some st ∧
      ∀ r c, r < numRois inp → c < numClasses inp →
        ∃ (v : α) (b : Nat) (x1 y1 x2 y2 dx dy dw dh : α),
          inp.batch[r]? = some v ∧ (b : Int) = (if 0 ≤ v then ⌊v⌋ else ⌈v⌉) ∧
          inp.rois[r * 4]? = some x1 ∧ inp.rois[r * 4 + 1]? = some y1 ∧
          inp.rois[r * 4 + 2]? = some x2 ∧ inp.rois[r * 4 + 3]? = some y2 ∧
          inp.deltas[(r * numClasses inp + c) * 4]? = some dx ∧
          inp.deltas[(r * numClasses inp + c) * 4 + 1]? = some dy ∧
          inp.deltas[(r * numClasses inp + c) * 4 + 2]? = some dw ∧
          inp.deltas[(r * numClasses inp + c) * 4 + 3]? = some dh ∧
          (b < 2 ^ 31 →
            ∃ H W, inp.bounds[2 * b]? = some H ∧ inp.bounds[2 * b + 1]? = some W ∧
              HoldsAt st.buf ((r * numClasses inp + c) * 4)
                (clip H W (_to_box_encoding_corner (refine exp
                  (_to_box_encoding_center { x1 := x1, y1 := y1, x2 := x2, y2 := y2 })
                  dx dy dw dh)))) := by
  obtain ⟨st, hst, -, -, hcells⟩ := compute_spec exp inp numImages h
  refine ⟨st, hst, fun r c hr hc => ?_⟩
  obtain ⟨box, ⟨v, b, H, W, x1, y1, x2, y2, dx, dy, dw, dh, gv, gb, gH, gW, g1, g2, g3, g4,
    k1, k2, k3, k4, rfl⟩, hold⟩ := hcells r c hr hc
  refine ⟨v, b, x1, y1, x2, y2, dx, dy, dw, dh, gv, (f32_to_u32_eq_some gb).1, g1, g2, g3, g4,
    k1, k2, k3, k4, fun hb31 => ?_⟩
  rw [heightIndex_eq hb31] at gH
  rw [widthIndex_eq hb31] at gW
  exact ⟨H, W, gH, gW, hold⟩

/-- The truncated batch index at the one-ROI input with the stored batch value `3 / 4`. -/
theorem batch_index_truncated_witness :
    ShapeOK (oneRoi ℝ (3 / 4) [30, 30, 1000, 1000]) 2 ∧
      ∃ st, _compute Real.exp (oneRoi ℝ (3 / 4) [30, 30, 1000, 1000]) = some st ∧
        ∀ r c, r < numRois (oneRoi ℝ (3 / 4) [30, 30, 1000, 1000]) →
          c < numClasses (oneRoi ℝ (3 / 4) [30, 30, 1000, 1000]) →
          ∃ (v : ℝ) (b : Nat) (x1 y1 x2 y2 dx dy dw dh : ℝ),
            (oneRoi ℝ (3 / 4) [30, 30, 1000, 1000]).batch[r]? = some v ∧
            (b : Int) = (if 0 ≤ v then ⌊v⌋ else ⌈v⌉) ∧
            (oneRoi ℝ (3 / 4) [30, 30, 1000, 1000]).rois[r * 4]? = some x1 ∧
            (oneRoi ℝ (3 / 4) [30, 30, 1000, 1000]).rois[r * 4 + 1]? = some y1 ∧
            (oneRoi ℝ (3 / 4) [30, 30, 1000, 1000]).rois[r * 4 + 2]? = some x2 ∧
            (oneRoi ℝ (3 / 4) [30, 30, 1000, 1000]).rois[r * 4 + 3]? = some y2 ∧
            (oneRoi ℝ (3 / 4) [30, 30, 1000, 1000]).deltas[
              (r * numClasses (oneRoi ℝ (3 / 4) [30, 30, 1000, 1000]) + c) * 4]? = some dx ∧
            (oneRoi ℝ (3 / 4) [30, 30, 1000, 1000]).deltas[
              (r * numClasses (oneRoi ℝ (3 / 4) [30, 30, 1000, 1000]) + c) * 4 + 1]? = some dy ∧
            (oneRoi ℝ (3 / 4) [30, 30, 1000, 1000]).deltas[
              (r * numClasses (oneRoi ℝ (3 / 4) [30, 30, 1000, 1000]) + c) * 4 + 2]? = some dw ∧
            (oneRoi ℝ (3 / 4) [30, 30, 1000, 1000]).deltas[
              (r * numClasses (oneRoi ℝ (3 / 4) [30, 30, 1000, 1000]) + c) * 4 + 3]? = some dh ∧
            (b < 2 ^ 31 →
              ∃ H W, (oneRoi ℝ (3 / 4) [30, 30, 1000, 1000]).bounds[2 * b]? = some H ∧
                (oneRoi ℝ (3 / 4) [30, 30, 1000, 1000]).bounds[2 * b + 1]? = some W ∧
                HoldsAt st.buf
                  ((r * numClasses (oneRoi ℝ (3 / 4) [30, 30, 1000, 1000]) + c) * 4)
                  (clip H W (_to_box_encoding_corner (refine Real.exp
                    (_to_box_encoding_center { x1 := x1, y1 := y1, x2 := x2, y2 := y2 })
                    dx dy dw dh)))) :=
  ⟨shapeOK_oneRoi _ _ 2 0 rfl f32_to_u32_three_quarters (by decide),
    batch_index_truncated Real.exp _ 2
      (shapeOK_oneRoi _ _ 2 0 rfl f32_to_u32_three_quarters (by decide))⟩

/-- C9, counterexample: `wrapInput 30 30` and `wrapInput 20 20` satisfy the shape
conditions, have the same ROI, deltas and batch index `2 ^ 31` and the same pair
`(1000, 1000)` for image `2 ^ 31`, and differ only in the pair of image `0`; the first
output has `x2 = 30` and the second has `x2 = 20`. -/
theorem outputs_depend_beyond_uint32 :
    (ShapeOK (wrapInput ℝ 30 30) 2147483649 ∧ ShapeOK (wrapInput ℝ 20 20) 2147483649) ∧
      (numRois (wrapInput ℝ 20 20) = numRois (wrapInput ℝ 30 30) ∧
        numClasses (wrapInput ℝ 20 20) = numClasses (wrapInput ℝ 30 30)) ∧
      (wrapInput ℝ 20 20).rois = (wrapInput ℝ 30 30).rois ∧
      (wrapInput ℝ 20 20).deltas = (wrapInput ℝ 30 30).deltas ∧
      (wrapInput ℝ 20 20).batch = (wrapInput ℝ 30 30).batch ∧
      (wrapInput ℝ 30 30).batch[0]? = some 2147483648 ∧
      f32_to_u32 (2147483648 : ℝ) = some 2147483648 ∧
      (wrapInput ℝ 20 20).bounds[2 * 2147483648]? =
        (wrapInput ℝ 30 30).bounds[2 * 2147483648]? ∧
      (wrapInput ℝ 20 20).bounds[2 * 2147483648 + 1]? =
        (wrapInput ℝ 30 30).bounds[2 * 2147483648 + 1]? ∧
      ∃ st st', _compute Real.exp (wrapInput ℝ 30 30) = some st ∧
        _compute Real.exp (wrapInput ℝ 20 20) = some st' ∧
        st.buf[2]? = some 30 ∧ st'.buf[2]? = some 20 ∧ (30 : ℝ) ≠ 20 := by
  refine ⟨⟨shapeOK_wrapInput 30 30, shapeOK_wrapInput 20 20⟩, ⟨rfl, rfl⟩, ?_, ?_, ?_, rfl,
    f32_to_u32_two_pow_31, ?_, ?_, ?_⟩
  · rw [rois_wrapInput, rois_wrapInput]
  · rw [deltas_wrapInput, deltas_wrapInput]
  · rw [batch_wrapInput, batch_wrapInput]
  · rw [bounds_wrapInput_height, bounds_wrapInput_height]
  · rw [bounds_wrapInput_width, bounds_wrapInput_width]
  · obtain ⟨st, hst, hbuf⟩ := compute_wrapInput 30 30
    obtain ⟨st', hst', hbuf'⟩ := compute_wrapInput 20 20
    refine ⟨st, st', hst, hst', ?_, ?_, by norm_num⟩
    · rw [hbuf]
      norm_num
    · rw [hbuf']
      norm_num

/-- C9, amended: for two inputs that satisfy the shape conditions, with the same `numRois`
and `numClasses`, and a pair `(r, c)`, if the inputs agree on the four coordinates of ROI
`r`, on the delta quadruple at `(r * numClasses + c) * 4`, on the batch index of `r`, which
is below `2 ^ 31`, and on the `(height, width)` pair of that image, then both transforms
return and the two outputs hold the same four values at
`(r * numClasses + c) * 4 .. + 3`, whatever the rest of the inputs is. -/
theorem outputs_independent [LinearOrderedField α] [FloorRing α] (exp : α → α)
    (inp inp' : Input α) (numImages numImages' : Nat)
    (h : ShapeOK inp numImages) (h' : ShapeOK inp' numImages')
    (hN : numRois inp' = numRois inp) (hC : numClasses inp' = numClasses inp)
    (r c : Nat) (hr : r < numRois inp) (hc : c < numClasses inp)
    (hroi : ∀ k, k < 4 → inp'.rois[r * 4 + k]? = inp.rois[r * 4 + k]?)
    (hdelta : ∀ k, k < 4 →
      inp'.deltas[(r * numClasses inp + c) * 4 + k]? =
        inp.deltas[(r * numClasses inp + c) * 4 + k]?)
    (hbatch : inp'.batch[r]? = inp.batch[r]?)
    (hindex : ∀ v b, inp.batch[r]? = some v → f32_to_u32 v = some b → b < 2 ^ 31)
    (hbounds : ∀ v b, inp.batch[r]? = some v → f32_to_u32 v = some b →
      inp'.bounds[2 * b]? = inp.bounds[2 * b]? ∧
      inp'.bounds[2 * b + 1]? = inp.bounds[2 * b + 1]?) :
    ∃ st st', _compute exp inp = some st ∧ _compute exp inp' = some st' ∧
      ∃ x1 y1 x2 y2,
        st.buf[(r * numClasses inp + c) * 4]? = some x1 ∧
        st'.buf[(r * numClasses inp + c) * 4]? = some x1 ∧
        st.buf[(r * numClasses inp + c) * 4 + 1]? = some y1 ∧
        st'.buf[(r * numClasses inp + c) * 4 + 1]? = some y1 ∧
        st.buf[(r * numClasses inp + c) * 4 + 2]? = some x2 ∧
        st'.buf[(r * numClasses inp + c) * 4 + 2]? = some x2 ∧
        st.buf[(r * numClasses inp + c) * 4 + 3]? = some y2 ∧
        st'.buf[(r * numClasses inp + c) * 4 + 3]? = some y2 := by
  obtain ⟨st, hst, -, -, hcells⟩ := compute_spec exp inp numImages h
  obtain ⟨box, ⟨v, b, H, W, x1, y1, x2, y2, dx, dy, dw, dh, gv, gb, gH, gW, g1, g2, g3, g4,
    k1, k2, k3, k4, rfl⟩, p1, p2, p3, p4⟩ := hcells r c hr hc
  have hb31 : b < 2 ^ 31 := hindex v b gv gb
  obtain ⟨eH, eW⟩ := hbounds v b gv gb
  rw [heightIndex_eq hb31] at gH
  rw [widthIndex_eq hb31] at gW
  have e0 := hroi 0 (by decide)
  have e1 := hroi 1 (by decide)
  have e2 := hroi 2 (by decide)
  have e3 := hroi 3 (by decide)
  have d0 := hdelta 0 (by decide)
  have d1 := hdelta 1 (by decide)
  have d2 := hdelta 2 (by decide)
  have d3 := hdelta 3 (by decide)
  simp only [Nat.add_zero] at e0 d0
  obtain ⟨st', hst', q1, q2, q3, q4⟩ := compute_cell exp inp' numImages' h'
    (show r < numRois inp' by rw [hN]; exact hr)
    (show c < numClasses inp' by rw [hC]; exact hc)
    (show inp'.batch[r]? = some v by rw [hbatch]; exact gv) gb
    (show inp'.bounds[heightIndex b]? = some H by rw [heightIndex_eq hb31, eH]; exact gH)
    (show inp'.bounds[widthIndex b]? = some W by rw [widthIndex_eq hb31, eW]; exact gW)
    (show inp'.rois[r * roiLength]? = some x1 by rw [← g1]; exact e0)
    (show inp'.rois[r * roiLength + 1]? = some y1 by rw [← g2]; exact e1)
    (show inp'.rois[r * roiLength + 2]? = some x2 by rw [← g3]; exact e2)
    (show inp'.rois[r * roiLength + 3]? = some y2 by rw [← g4]; exact e3)
    (show inp'.deltas[outIndex (numClasses inp') r c]? = some dx by
      rw [hC, ← k1]; exact d0)
    (show inp'.deltas[outIndex (numClasses inp') r c + 1]? = some dy by
      rw [hC, ← k2]; exact d1)
    (show inp'.deltas[outIndex (numClasses inp') r c + 2]? = some dw by
      rw [hC, ← k3]; exact d2)
    (show inp'.deltas[outIndex (numClasses inp') r c + 3]? = some dh by
      rw [hC, ← k4]; exact d3)
  rw [hC] at q1 q2 q3 q4
  exact ⟨st, st', hst, hst', _, _, _, _, p1, q1, p2, q2, p3, q3, p4, q4⟩

/-- The independence of outputs at two one-ROI inputs that differ in the bounds of the
image the ROI does not belong to. -/
theorem outputs_independent_witness :
    (ShapeOK (oneRoi ℝ 0 [30, 30, 5, 5]) 2 ∧ ShapeOK (oneRoi ℝ 0 [30, 30, 7, 7]) 2) ∧
      ∃ st st', _compute Real.exp (oneRoi ℝ 0 [30, 30, 5, 5]) = some st ∧
        _compute Real.exp (oneRoi ℝ 0 [30, 30, 7, 7]) = some st' ∧
        ∃ x1 y1 x2 y2,
          st.buf[(0 * numClasses (oneRoi ℝ 0 [30, 30, 5, 5]) + 0) * 4]? = some x1 ∧
          st'.buf[(0 * numClasses (oneRoi ℝ 0 [30, 30, 5, 5]) + 0) * 4]? = some x1 ∧
          st.buf[(0 * numClasses (oneRoi ℝ 0 [30, 30, 5, 5]) + 0) * 4 + 1]? = some y1 ∧
          st'.buf[(0 * numClasses (oneRoi ℝ 0 [30, 30, 5, 5]) + 0) * 4 + 1]? = some y1 ∧
          st.buf[(0 * numClasses (oneRoi ℝ 0 [30, 30, 5, 5]) + 0) * 4 + 2]? = some x2 ∧
          st'.buf[(0 * numClasses (oneRoi ℝ 0 [30, 30, 5, 5]) + 0) * 4 + 2]? = some x2 ∧
          st.buf[(0 * numClasses (oneRoi ℝ 0 [30, 30, 5, 5]) + 0) * 4 + 3]? = some y2 ∧
          st'.buf[(0 * numClasses (oneRoi ℝ 0 [30, 30, 5, 5]) + 0) * 4 + 3]? = some y2 :=
  ⟨⟨shapeOK_oneRoi 0 _ 2 0 rfl f32_to_u32_zero (by decide),
      shapeOK_oneRoi 0 _ 2 0 rfl f32_to_u32_zero (by decide)⟩,
    outputs_independent Real.exp (oneRoi ℝ 0 [30, 30, 5, 5]) (oneRoi ℝ 0 [30, 30, 7, 7]) 2 2
      (shapeOK_oneRoi 0 _ 2 0 rfl f32_to_u32_zero (by decide))
      (shapeOK_oneRoi 0 _ 2 0 rfl f32_to_u32_zero (by decide))
      rfl rfl 0 0 (by simp [numRois_oneRoi]) (by simp [numClasses_oneRoi])
      (fun _ _ => rfl) (fun _ _ => rfl) rfl
      (by
        intro v b hv hb
        have hv0 : v = 0 := by simpa [oneRoi, singleRoi] using hv.symm
        subst hv0
        rw [f32_to_u32_zero] at hb
        cases hb
        norm_num)
      (by
        intro v b hv hb
        have hv0 : v = 0 := by simpa [oneRoi, singleRoi] using hv.symm
        subst hv0
        rw [f32_to_u32_zero] at hb
        cases hb
        simp [oneRoi, singleRoi])⟩

/-- C10: for `numClasses = C` and two different pairs `(r, c)`, `(r', c')` with `c < C` and
`c' < C`, no index lies in both output ranges `[(r * C + c) * 4, (r * C + c) * 4 + 4)` and
`[(r' * C + c') * 4, (r' * C + c') * 4 + 4)`, the index arithmetic being that of the
natural numbers. -/
theorem write_ranges_disjoint (C r c r' c' : Nat) (hc : c < C) (hc' : c' < C)
    (hne : (r, c) ≠ (r', c')) (i : Nat) :
    ¬ (outIndex C r c ≤ i ∧ i < outIndex C r c + 4 ∧
       outIndex C r' c' ≤ i ∧ i < outIndex C r' c' + 4) := by
  rintro ⟨h1, h2, h3, h4⟩
  unfold outIndex roiLength at h1 h2 h3 h4
  have h : r * C + c = r' * C + c' := by omega
  obtain ⟨e1, e2⟩ := outIndex_injective hc hc' h
  exact hne (by rw [e1, e2])

/-- The write ranges of the pairs `(0, 1)` and `(1, 0)` for three classes, at the index `5`. -/
theorem write_ranges_disjoint_witness :
    (1 < 3 ∧ 0 < 3 ∧ ((0, 1) : Nat × Nat) ≠ (1, 0)) ∧
      ¬ (outIndex 3 0 1 ≤ 5 ∧ 5 < outIndex 3 0 1 + 4 ∧
         outIndex 3 1 0 ≤ 5 ∧ 5 < outIndex 3 1 0 + 4) :=
  ⟨⟨by decide, by decide, by decide⟩,
    write_ranges_disjoint 3 0 1 1 0 (by decide) (by decide) (by decide) 5⟩

/-- C11, scenario (no clip): with one ROI `(10, 10, 50, 50)`, one class, the delta
`(0, 0, 0, 0)`, the batch index `0` and the image bounds `(height, width) = (1000, 1000)`
the transform returns and its output is exactly `(10, 10, 50, 50)`. -/
theorem scenario_no_clip :
    ∃ st, _compute Real.exp (oneRoi ℝ 0 [1000, 1000]) = some st ∧
      st.buf = [10, 10, 50, 50] := by
  obtain ⟨st, hst, hbuf⟩ := compute_singleRoi_buf Real.exp
    { x1 := 10, y1 := 10, x2 := 50, y2 := 50 } 0 0 0 0 (0 : ℝ) [1000, 1000] 1 0 1000 1000 rfl
    f32_to_u32_zero (by decide) (by rw [heightIndex_zero]; rfl) (by rw [widthIndex_zero]; rfl)
  refine ⟨st, hst, ?_⟩
  rw [hbuf]
  norm_num [clip, refine, _to_box_encoding_corner, _to_box_encoding_center, vsi_nn_min,
    vsi_nn_max]

/-- C12, scenario (clip): with one ROI `(10, 10, 50, 50)`, one class, the delta
`(0, 0, 0, 0)`, the batch index `0` and the image bounds `(height, width) = (30, 30)` the
transform returns and its output is exactly `(10, 10, 30, 30)`. -/
theorem scenario_clip :
    ∃ st, _compute Real.exp (oneRoi ℝ 0 [30, 30]) = some st ∧
      st.buf = [10, 10, 30, 30] := by
  obtain ⟨st, hst, hbuf⟩ := compute_singleRoi_buf Real.exp
    { x1 := 10, y1 := 10, x2 := 50, y2 := 50 } 0 0 0 0 (0 : ℝ) [30, 30] 1 0 30 30 rfl
    f32_to_u32_zero (by decide) (by rw [heightIndex_zero]; rfl) (by rw [widthIndex_zero]; rfl)
  refine ⟨st, hst, ?_⟩
  rw [hbuf]
  norm_num [clip, refine, _to_box_encoding_corner, _to_box_encoding_center, vsi_nn_min,
    vsi_nn_max]

/-- C13, scenario (scale): with one ROI `(0, 0, 10, 10)`, one class, the delta
`(0, 0, ln 2, 0)`, the batch index `0` and image bounds with `10 ≤ height` and
`15 ≤ width`, the refined center box is `(w, h, x, y) = (20, 10, 5, 5)`, its corner form
is `(-5, 0, 15, 10)` and the output of the transform is `(0, 0, 15, 10)`. -/
theorem scenario_scale (H W : ℝ) (hH : 10 ≤ H) (hW : 15 ≤ W) :
    refine Real.exp (_to_box_encoding_center { x1 := 0, y1 := 0, x2 := 10, y2 := 10 })
        0 0 (Real.log 2) 0 = { w := 20, h := 10, x := 5, y := 5 } ∧
      _to_box_encoding_corner (refine Real.exp
        (_to_box_encoding_center { x1 := 0, y1 := 0, x2 := 10, y2 := 10 })
        0 0 (Real.log 2) 0) = { x1 := -5, y1 := 0, x2 := 15, y2 := 10 } ∧
      ∃ st, _compute Real.exp
          (singleRoi ℝ { x1 := 0, y1 := 0, x2 := 10, y2 := 10 } 0 0 (Real.log 2) 0 0 [H, W]) =
          some st ∧
        st.buf = [0, 0, 15, 10] := by
  have h2 : Real.exp (Real.log 2) = 2 := Real.exp_log (by norm_num)
  have hctr : refine Real.exp
      (_to_box_encoding_center { x1 := 0, y1 := 0, x2 := 10, y2 := 10 })
      0 0 (Real.log 2) 0 = { w := 20, h := 10, x := 5, y := 5 } := by
    simp only [refine, _to_box_encoding_center, h2, Real.exp_zero]
    norm_num
  refine ⟨hctr, ?_, ?_⟩
  · rw [hctr]
    simp only [_to_box_encoding_corner]
    norm_num
  · obtain ⟨st, hst, hbuf⟩ := compute_singleRoi_buf Real.exp
      { x1 := 0, y1 := 0, x2 := 10, y2 := 10 } 0 0 (Real.log 2) 0 (0 : ℝ) [H, W] 1 0 H W rfl
      f32_to_u32_zero (by decide) (by rw [heightIndex_zero]; rfl)
      (by rw [widthIndex_zero]; rfl)
    refine ⟨st, hst, ?_⟩
    rw [hbuf, hctr]
    simp only [clip, _to_box_encoding_corner, vsi_nn_min, vsi_nn_max]
    norm_num
    exact ⟨by linarith, by linarith, hW, hH⟩

/-- The scale scenario at the image bounds `(height, width) = (10, 15)`. -/
theorem scenario_scale_witness :
    ((10 : ℝ) ≤ 10 ∧ (15 : ℝ) ≤ 15) ∧
      refine Real.exp (_to_box_encoding_center { x1 := 0, y1 := 0, x2 := 10, y2 := 10 })
        0 0 (Real.log 2) 0 = { w := 20, h := 10, x := 5, y := 5 } ∧
      _to_box_encoding_corner (refine Real.exp
        (_to_box_encoding_center { x1 := 0, y1 := 0, x2 := 10, y2 := 10 })
        0 0 (Real.log 2) 0) = { x1 := -5, y1 := 0, x2 := 15, y2 := 10 } ∧
      ∃ st, _compute Real.exp
          (singleRoi ℝ { x1 := 0, y1 := 0, x2 := 10, y2 := 10 } 0 0 (Real.log 2) 0 0 [10, 15]) =
          some st ∧
        st.buf = [0, 0, 15, 10] :=
  ⟨⟨le_rfl, le_rfl⟩, scenario_scale 10 15 le_rfl le_rfl⟩

/-- C14: taking a corner-form box to center form and back to corner form gives the box
again, in all four fields. -/
theorem corner_center_roundtrip [LinearOrderedField α] (c : vsi_nn_box_encoding_corner α) :
    _to_box_encoding_corner (_to_box_encoding_center c) = c := by
  cases c with
  | mk x1 y1 x2 y2 =>
    simp only [_to_box_encoding_corner, _to_box_encoding_center]
    congr 1 <;> ring

/-- C15: an inverted box is a possible output. With the ROI `(50, 10, 10, 50)`, one class,
the delta `(0, 0, 0, 0)`, the batch index `0` and the image bounds `(1000, 1000)` the input
is well-shaped and the output of the transform is `(50, 10, 10, 50)`, where `x1 > x2`:
the clip step does not reorder the coordinates. -/
theorem inverted_box_possible :
    ShapeOK (singleRoi ℝ { x1 := 50, y1 := 10, x2 := 10, y2 := 50 } 0 0 0 0 0
        [1000, 1000]) 1 ∧
      ∃ st x1 y1 x2 y2, _compute Real.exp
          (singleRoi ℝ { x1 := 50, y1 := 10, x2 := 10, y2 := 50 } 0 0 0 0 0 [1000, 1000]) =
          some st ∧
        st.buf = [x1, y1, x2, y2] ∧ x1 = 50 ∧ x2 = 10 ∧ x1 > x2 := by
  refine ⟨shapeOK_singleRoi _ 0 0 0 0 0 _ 1 0 rfl f32_to_u32_zero (by decide), ?_⟩
  obtain ⟨st, hst, hbuf⟩ := compute_singleRoi_buf Real.exp
    { x1 := 50, y1 := 10, x2 := 10, y2 := 50 } 0 0 0 0 (0 : ℝ) [1000, 1000] 1 0 1000 1000 rfl
    f32_to_u32_zero (by decide) (by rw [heightIndex_zero]; rfl) (by rw [widthIndex_zero]; rfl)
  refine ⟨st, _, _, _, _, hst, hbuf, ?_, ?_, ?_⟩ <;>
    norm_num [clip, refine, _to_box_encoding_corner, _to_box_encoding_center, vsi_nn_min,
      vsi_nn_max]

/-- C16: corner order is preserved for well-formed ROIs. On every input that satisfies
the shape conditions, for every ROI `r` with `x1 ≤ x2` and `y1 ≤ y2` and every class `c`,
whatever the deltas and the image bounds are, the box stored for `(r, c)` satisfies
`x1 ≤ x2` and `y1 ≤ y2`. -/
theorem corner_order_preserved (inp : Input ℝ) (numImages : Nat)
    (h : ShapeOK inp numImages) (r c : Nat) (hr : r < numRois inp)
    (hc : c < numClasses inp) (a1 b1 a2 b2 : ℝ)
    (g1 : inp.rois[r * 4]? = some a1) (g2 : inp.rois[r * 4 + 1]? = some b1)
    (g3 : inp.rois[r * 4 + 2]? = some a2) (g4 : inp.rois[r * 4 + 3]? = some b2)
    (hx : a1 ≤ a2) (hy : b1 ≤ b2) :
    ∃ st x1 y1 x2 y2, _compute Real.exp inp = some st ∧
      st.buf[(r * numClasses inp + c) * 4]? = some x1 ∧
      st.buf[(r * numClasses inp + c) * 4 + 1]? = some y1 ∧
      st.buf[(r * numClasses inp + c) * 4 + 2]? = some x2 ∧
      st.buf[(r * numClasses inp + c) * 4 + 3]? = some y2 ∧
      x1 ≤ x2 ∧ y1 ≤ y2 := by
  obtain ⟨st, hst, -, -, hcells⟩ := compute_spec Real.exp inp numImages h
  obtain ⟨box, ⟨v, b, H, W, x1, y1, x2, y2, dx, dy, dw, dh, -, -, -, -, k1, k2, k3, k4,
    -, -, -, -, rfl⟩, p1, p2, p3, p4⟩ := hcells r c hr hc
  have e1 : x1 = a1 := Option.some.inj (k1.symm.trans g1)
  have e2 : y1 = b1 := Option.some.inj (k2.symm.trans g2)
  have e3 : x2 = a2 := Option.some.inj (k3.symm.trans g3)
  have e4 : y2 = b2 := Option.some.inj (k4.symm.trans g4)
  subst e1 e2 e3 e4
  obtain ⟨ox, oy⟩ := clip_corner_order Real.exp (fun t => (Real.exp_pos t).le)
    { x1 := x1, y1 := y1, x2 := x2, y2 := y2 } hx hy dx dy dw dh H W
  exact ⟨st, _, _, _, _, hst, p1, p2, p3, p4, ox, oy⟩

/-- The corner order at the one-ROI input with the ROI `(10, 10, 50, 50)` and the image
bounds `(30, 30)`. -/
theorem corner_order_preserved_witness :
    (ShapeOK (oneRoi ℝ 0 [30, 30]) 1 ∧ (10 : ℝ) ≤ 50) ∧
      ∃ st x1 y1 x2 y2, _compute Real.exp (oneRoi ℝ 0 [30, 30]) = some st ∧
        st.buf[(0 * numClasses (oneRoi ℝ 0 [30, 30]) + 0) * 4]? = some x1 ∧
        st.buf[(0 * numClasses (oneRoi ℝ 0 [30, 30]) + 0) * 4 + 1]? = some y1 ∧
        st.buf[(0 * numClasses (oneRoi ℝ 0 [30, 30]) + 0) * 4 + 2]? = some x2 ∧
        st.buf[(0 * numClasses (oneRoi ℝ 0 [30, 30]) + 0) * 4 + 3]? = some y2 ∧
        x1 ≤ x2 ∧ y1 ≤ y2 :=
  ⟨⟨shapeOK_oneRoi 0 [30, 30] 1 0 rfl f32_to_u32_zero (by decide), by norm_num⟩,
    corner_order_preserved (oneRoi ℝ 0 [30, 30]) 1
      (shapeOK_oneRoi 0 [30, 30] 1 0 rfl f32_to_u32_zero (by decide)) 0 0
      (by rw [numRois_oneRoi]; decide) (by rw [numClasses_oneRoi]; decide) 10 10 50 50
      rfl rfl rfl rfl (by norm_num) (by norm_num)⟩

/-- C17, counterexample: the stored batch value `2 ^ 31 = 2147483648` is an integer in
`[0, 2 ^ 32)` and converts to the image index `2 ^ 31`, but the `uint32_t` product
`batchIndex * imageLength` wraps to `0`: on an input whose bounds buffer holds
`(30, 30)` for image `0` and `1000` everywhere else, `bounds[2k]` and `bounds[2k + 1]` are
`1000`, while the transform reads the indices `0` and `1` and clips the ROI
`(10, 10, 50, 50)` to `(10, 10, 30, 30)`. -/
theorem bounds_index_wraps :
    ((0 : ℝ) ≤ 2147483648 ∧ (2147483648 : ℝ) < 2 ^ 32) ∧
      ShapeOK (oneRoi ℝ 2147483648 (30 :: 30 :: List.replicate 4294967296 1000))
        2147483649 ∧
      f32_to_u32 (2147483648 : ℝ) = some 2147483648 ∧
      (oneRoi ℝ 2147483648 (30 :: 30 :: List.replicate 4294967296 1000)).bounds[
        2 * 2147483648]? = some 1000 ∧
      (oneRoi ℝ 2147483648 (30 :: 30 :: List.replicate 4294967296 1000)).bounds[
        2 * 2147483648 + 1]? = some 1000 ∧
      heightIndex 2147483648 = 0 ∧ widthIndex 2147483648 = 1 ∧
      ∃ st, _compute Real.exp
          (oneRoi ℝ 2147483648 (30 :: 30 :: List.replicate 4294967296 1000)) = some st ∧
        st.buf = [10, 10, 30, 30] := by
  have hlen : (30 :: 30 :: List.replicate 4294967296 (1000 : ℝ)).length = 2 * 2147483649 := by
    rw [length_two_cons_replicate]
  refine ⟨⟨by norm_num, by norm_num⟩,
    shapeOK_oneRoi _ _ 2147483649 2147483648 hlen f32_to_u32_two_pow_31 (by norm_num),
    f32_to_u32_two_pow_31,
    getElem?_two_cons_replicate 30 30 1000 4294967296 4294967294 (by norm_num),
    getElem?_two_cons_replicate 30 30 1000 4294967296 4294967295 (by norm_num),
    heightIndex_two_pow_31, widthIndex_two_pow_31, ?_⟩
  obtain ⟨st, hst, hbuf⟩ := compute_singleRoi_buf Real.exp
    { x1 := 10, y1 := 10, x2 := 50, y2 := 50 } 0 0 0 0 (2147483648 : ℝ)
    (30 :: 30 :: List.replicate 4294967296 1000) 2147483649 2147483648 30 30 hlen
    f32_to_u32_two_pow_31 (by norm_num)
    (by rw [heightIndex_two_pow_31]; exact List.getElem?_cons_zero)
    (by
      rw [widthIndex_two_pow_31, show (1 : Nat) = 0 + 1 from rfl, List.getElem?_cons_succ]
      exact List.getElem?_cons_zero)
  refine ⟨st, hst, ?_⟩
  rw [hbuf]
  norm_num [clip, refine, _to_box_encoding_corner, _to_box_encoding_center, vsi_nn_min,
    vsi_nn_max]

/-- C17, amended: for every ROI `r` of an input that satisfies the shape conditions whose
stored batch value `v` satisfies `0 ≤ v < 2 ^ 32`, the image index used is `⌊v⌋`; when
moreover `v < 2 ^ 31`, so in particular for every integer-valued `v = k < 2 ^ 31`, the
bounds read are `bounds[2 * ⌊v⌋]` as `imageHeight` and `bounds[2 * ⌊v⌋ + 1]` as
`imageWidth`: the boxes of all classes of `r` are clipped with this pair. -/
theorem batch_index_floor [LinearOrderedField α] [FloorRing α] (exp : α → α)
    (inp : Input α) (numImages : Nat) (h : ShapeOK inp numImages) (r : Nat)
    (hr : r < numRois inp) (v : α) (hv : inp.batch[r]? = some v) (h0 : 0 ≤ v)
    (h1 : v < 2 ^ 32) :
    f32_to_u32 v = some ⌊v⌋.toNat ∧
      (v < 2 ^ 31 →
        ∃ st imageHeight imageWidth, _compute exp inp = some st ∧
          inp.bounds[2 * ⌊v⌋.toNat]? = some imageHeight ∧
          inp.bounds[2 * ⌊v⌋.toNat + 1]? = some imageWidth ∧
          ∀ c, c < numClasses inp →
            ∃ x1 y1 x2 y2 dx dy dw dh,
              inp.rois[r * 4]? = some x1 ∧ inp.rois[r * 4 + 1]? = some y1 ∧
              inp.rois[r * 4 + 2]? = some x2 ∧ inp.rois[r * 4 + 3]? = some y2 ∧
              inp.deltas[(r * numClasses inp + c) * 4]? = some dx ∧
              inp.deltas[(r * numClasses inp + c) * 4 + 1]? = some dy ∧
              inp.deltas[(r * numClasses inp + c) * 4 + 2]? = some dw ∧
              inp.deltas[(r * numClasses inp + c) * 4 + 3]? = some dh ∧
              HoldsAt st.buf ((r * numClasses inp + c) * 4)
                (clip imageHeight imageWidth (_to_box_encoding_corner (refine exp
                  (_to_box_encoding_center { x1 := x1, y1 := y1, x2 := x2, y2 := y2 })
                  dx dy dw dh)))) := by
  have hb := f32_to_u32_of_nonneg h0 h1
  refine ⟨hb, fun h31 => ?_⟩
  have hlt : ⌊v⌋.toNat < 2 ^ 31 := by
    rw [Int.toNat_lt (Int.floor_nonneg.mpr h0), Int.floor_lt]
    have hc : (((2 ^ 31 : Nat) : Int) : α) = 2 ^ 31 := by norm_num
    rw [hc]
    exact h31
  obtain ⟨st, hst, -, -, hcells⟩ := compute_spec exp inp numImages h
  obtain ⟨b', hb', hbM⟩ := h.batch_lt v (List.getElem?_mem hv)
  rw [hb] at hb'
  cases hb'
  have hhi := heightIndex_eq hlt
  have hwi := widthIndex_eq hlt
  obtain ⟨H, hH⟩ := exists_getElem? inp.bounds (show 2 * ⌊v⌋.toNat < inp.bounds.length by
    rw [h.bounds_len]; omega)
  obtain ⟨W, hW⟩ := exists_getElem? inp.bounds (show 2 * ⌊v⌋.toNat + 1 < inp.bounds.length by
    rw [h.bounds_len]; omega)
  refine ⟨st, H, W, hst, hH, hW, fun c hc => ?_⟩
  obtain ⟨box, ⟨v', b, H', W', x1, y1, x2, y2, dx, dy, dw, dh, gv, gb, gH, gW, g1, g2, g3, g4,
    k1, k2, k3, k4, rfl⟩, hold⟩ := hcells r c hr hc
  rw [hv] at gv
  cases gv
  rw [hb] at gb
  cases gb
  rw [hhi, hH] at gH
  rw [hwi, hW] at gW
  cases gH
  cases gW
  exact ⟨x1, y1, x2, y2, dx, dy, dw, dh, g1, g2, g3, g4, k1, k2, k3, k4, hold⟩

/-- The floor of the batch index at the one-ROI input with the stored batch value
`3 / 4` and the image bounds `(30, 30)` and `(1000, 1000)`. -/
theorem batch_index_floor_witness :
    (ShapeOK (oneRoi ℝ (3 / 4) [30, 30, 1000, 1000]) 2 ∧ (0 : ℝ) ≤ 3 / 4 ∧
        (3 / 4 : ℝ) < 2 ^ 32) ∧
      f32_to_u32 (3 / 4 : ℝ) = some ⌊(3 / 4 : ℝ)⌋.toNat ∧
      ((3 / 4 : ℝ) < 2 ^ 31 →
        ∃ st imageHeight imageWidth,
          _compute Real.exp (oneRoi ℝ (3 / 4) [30, 30, 1000, 1000]) = some st ∧
          (oneRoi ℝ (3 / 4) [30, 30, 1000, 1000]).bounds[2 * ⌊(3 / 4 : ℝ)⌋.toNat]? =
            some imageHeight ∧
          (oneRoi ℝ (3 / 4) [30, 30, 1000, 1000]).bounds[2 * ⌊(3 / 4 : ℝ)⌋.toNat + 1]? =
            some imageWidth ∧
          ∀ c, c < numClasses (oneRoi ℝ (3 / 4) [30, 30, 1000, 1000]) →
            ∃ x1 y1 x2 y2 dx dy dw dh,
              (oneRoi ℝ (3 / 4) [30, 30, 1000, 1000]).rois[0 * 4]? = some x1 ∧
              (oneRoi ℝ (3 / 4) [30, 30, 1000, 1000]).rois[0 * 4 + 1]? = some y1 ∧
              (oneRoi ℝ (3 / 4) [30, 30, 1000, 1000]).rois[0 * 4 + 2]? = some x2 ∧
              (oneRoi ℝ (3 / 4) [30, 30, 1000, 1000]).rois[0 * 4 + 3]? = some y2 ∧
              (oneRoi ℝ (3 / 4) [30, 30, 1000, 1000]).deltas[
                (0 * numClasses (oneRoi ℝ (3 / 4) [30, 30, 1000, 1000]) + c) * 4]? = some dx ∧
              (oneRoi ℝ (3 / 4) [30, 30, 1000, 1000]).deltas[
                (0 * numClasses (oneRoi ℝ (3 / 4) [30, 30, 1000, 1000]) + c) * 4 + 1]? =
                some dy ∧
              (oneRoi ℝ (3 / 4) [30, 30, 1000, 1000]).deltas[
                (0 * numClasses (oneRoi ℝ (3 / 4) [30, 30, 1000, 1000]) + c) * 4 + 2]? =
                some dw ∧
              (oneRoi ℝ (3 / 4) [30, 30, 1000, 1000]).deltas[
                (0 * numClasses (oneRoi ℝ (3 / 4) [30, 30, 1000, 1000]) + c) * 4 + 3]? =
                some dh ∧
              HoldsAt st.buf
                ((0 * numClasses (oneRoi ℝ (3 / 4) [30, 30, 1000, 1000]) + c) * 4)
                (clip imageHeight imageWidth (_to_box_encoding_corner (refine Real.exp
                  (_to_box_encoding_center { x1 := x1, y1 := y1, x2 := x2, y2 := y2 })
                  dx dy dw dh)))) :=
  ⟨⟨shapeOK_oneRoi _ _ 2 0 rfl f32_to_u32_three_quarters (by decide), by norm_num,
      by norm_num⟩,
    batch_index_floor Real.exp (oneRoi ℝ (3 / 4) [30, 30, 1000, 1000]) 2
      (shapeOK_oneRoi _ _ 2 0 rfl f32_to_u32_three_quarters (by decide)) 0
      (by rw [numRois_oneRoi]; decide) (3 / 4) rfl (by norm_num) (by norm_num)⟩

end AxisAlignedBBoxTransform
